import Mathlib

/-!
The lifecycle reconciler of docker-spy (`spy.go`).

A shallow embedding of `spy.go` and the properties of its transition procedure
`handleContainerEvent`, its metadata resolver `getContainerNames` and the startup pass
`registerRunningContainers`.

Modelling conventions.

* Go strings are Lean `String`s; the functions of package `strings` that the file uses
  (`Index`, `Contains`, `HasPrefix`, `SplitN`) are written out over the character lists.
  The patterns searched for are ASCII, so matching on code points and on UTF-8 bytes agree.
* `map[string]Container` is a function `String → Option Container`; `m[id] = c` and
  `delete(m, id)` are the two point updates.
* A Go run-time panic (index out of range) and `log.Fatalf` are the two `Abort` outcomes; every
  procedure returns `Except Abort _`.
* The Docker client is an oracle: its answer to the `n`-th `InspectContainer` call is
  `answers n id`, and the client counts the calls it has received (`asked`).
* `Spy.trace` is a ghost field: the calls issued so far to the Docker client and to the cache.
* `log.Printf` has no effect on the state and is left out.
-/

namespace DockerSpy

/-! ## Package `strings` -/

/-- Position of the first occurrence of `sep` in a character list (`strings.Index`, with
`none` for the result `-1`). -/
def indexOf (sep : List Char) : List Char → Option Nat
  | [] => if sep.isPrefixOf [] then some 0 else none
  | c :: cs => if sep.isPrefixOf (c :: cs) then some 0 else (indexOf sep cs).map (· + 1)

/-- Go `strings.Index(s, substr)`. -/
def Index (s substr : String) : Option Nat := indexOf substr.data s.data

/-- Go `strings.Contains(s, substr)`, that is `Index(s, substr) >= 0`. -/
def Contains (s substr : String) : Bool := (Index s substr).isSome

/-- Go `strings.HasPrefix(s, p)`. -/
def HasPrefix (s p : String) : Bool := p.data.isPrefixOf s.data

/-- Go `explode(s, n)` for `n > 0`: up to `n` pieces of one character each, the last piece
being the remainder. -/
def explode : Nat → List Char → List String
  | 0, _ => []
  | _, [] => []
  | 1, c :: cs => [String.mk (c :: cs)]
  | n + 2, c :: cs => String.mk [c] :: explode (n + 1) cs

/-- The loop of Go `genSplit` for a non-empty separator: at most `k` cuts. -/
def splitLoop (sep : List Char) : Nat → List Char → List String
  | 0, s => [String.mk s]
  | k + 1, s =>
    match indexOf sep s with
    | none => [String.mk s]
    | some m => String.mk (s.take m) :: splitLoop sep k (s.drop (m + sep.length))

/-- Go `strings.SplitN(s, sep, n)` for `n ≥ 0` (the source only passes `2`). -/
def SplitN (s sep : String) (n : Nat) : List String :=
  if n = 0 then []
  else if sep.data.isEmpty then explode n s.data
  else splitLoop sep.data (n - 1) s.data

/-! ## Outcomes -/

/-- The two ways a procedure of `spy.go` can stop the process. -/
inductive Abort where
  | fatal (msg : String)
  | indexOutOfRange
  deriving DecidableEq, Repr

/-- Go slice indexing `a[i]`, which panics when `i` is out of range. -/
def index {α : Type} (a : List α) (i : Nat) : Except Abort α :=
  match a.get? i with
  | some x => .ok x
  | none => .error Abort.indexOutOfRange

/-! ## Data model -/

/-- The struct `Container` of `spy.go`. -/
structure Container where
  first : String
  status : String
  created : Bool
  deriving DecidableEq, Repr

/-- The struct `PublishedName` of `spy.go`. -/
structure PublishedName where
  name : String
  ip : String
  deriving DecidableEq, Repr

/-- Modelled from the spec: the declaration of `Record` is not in `spy.go`; the spec gives the
unit written to the cache as `(ip, reverseLookupKey, name)`, the order of the positional
literal `Record{name.ip, arpa, name.name}`. -/
structure Record where
  ip : String
  arpa : String
  fqdn : String
  deriving DecidableEq, Repr

/-- Modelled from the spec: the resolution cache is not in `spy.go`; the spec describes it as a
flat mapping of name to record with unconditional set and remove. -/
structure Cache where
  entries : String → Option Record

/-- Modelled from the spec: `set(name, record)` writes the record under `name`, overwriting any
prior entry. -/
def Cache.Set (c : Cache) (name : String) (r : Record) : Cache :=
  ⟨fun k => if k = name then some r else c.entries k⟩

/-- Modelled from the spec: `remove(name)` removes the entry keyed by `name`; removing a
nonexistent key is a no-op. -/
def Cache.Remove (c : Cache) (name : String) : Cache :=
  ⟨fun k => if k = name then none else c.entries k⟩

/-- Modelled from the spec: the declaration of `DNS` is not in `spy.go`; the only member used
is `cache`. -/
structure DNS where
  cache : Cache

namespace dockerApi

/-- The fields of `dockerApi.APIContainers` that `spy.go` reads. -/
structure APIContainers where
  ID : String
  Status : String
  deriving DecidableEq, Repr

/-- The fields of `dockerApi.APIEvents` that `spy.go` reads. -/
structure APIEvents where
  ID : String
  Status : String
  deriving DecidableEq, Repr

/-- The fields of `dockerApi.Config` that `spy.go` reads. -/
structure Config where
  Hostname : String
  Domainname : String
  Env : List String
  deriving DecidableEq, Repr

/-- The field of `dockerApi.NetworkSettings` that `spy.go` reads. -/
structure NetworkSettings where
  IPAddress : String
  deriving DecidableEq, Repr

/-- The fields of `dockerApi.Container` that `spy.go` reads (both pointers taken non-nil). -/
structure Container where
  Config : Config
  NetworkSettings : NetworkSettings
  deriving DecidableEq, Repr

/-- The Docker client as an oracle: `ListContainers` is the answer to the one enumeration,
`answers n id` the answer to the `n`-th `InspectContainer` call when it asks for `id`, and
`asked` the number of `InspectContainer` calls received so far. -/
structure Client where
  ListContainers : Except String (List APIContainers)
  answers : Nat → String → Except String Container
  asked : Nat

/-- The call `client.InspectContainer(id)`: the oracle's current answer, and the client after
the call. -/
def Client.InspectContainer (c : Client) (id : String) : Except String Container × Client :=
  (c.answers c.asked id, { c with asked := c.asked + 1 })

end dockerApi

/-- A call issued to one of the external collaborators. -/
inductive Call where
  | inspect (id : String)
  | set (name : String) (r : Record)
  | remove (name : String)
  deriving DecidableEq, Repr

/-- Whether a call is a cache `Set`. -/
def Call.isSet : Call → Bool
  | .set _ _ => true
  | _ => false

/-- Whether a call is a cache `Remove`. -/
def Call.isRemove : Call → Bool
  | .remove _ => true
  | _ => false

/-- The struct `Spy` of `spy.go`, with the ghost field `trace`. -/
structure Spy where
  docker : dockerApi.Client
  dns : DNS
  containers : String → Option Container
  trace : List Call

/-- The statement `m[id] = c`. -/
def store (m : String → Option Container) (id : String) (c : Container) :
    String → Option Container :=
  fun k => if k = id then some c else m k

/-- The statement `delete(m, id)`. -/
def delete (m : String → Option Container) (id : String) : String → Option Container :=
  fun k => if k = id then none else m k

/-! ## The procedures of `spy.go` -/

section Procedures

/- The function `dns.ReverseAddr` of the library `miekg/dns`, a parameter of the development:
it returns the reverse-lookup name and an error (`none` for `nil`). -/
variable (ReverseAddr : String → String × Option String)

/-- The body of the loop over `container.Config.Env` in `getContainerNames` (lines 86-95). -/
def envLine (names : List PublishedName) (line : String) : Except Abort (List PublishedName) := do
  let env := SplitN line "=" 2
  let env0 ← index env 0
  if HasPrefix env0 "DNS_PUBLISH_NAME_" && decide (env.length > 1) then
    let env1 ← index env 1
    let info := SplitN env1 ":" 2
    if info.length > 1 then
      let info0 ← index info 0
      let info1 ← index info 1
      pure (names ++ [{ name := info0 ++ ".", ip := info1 }])
    else
      pure names
  else
    pure names

/-- The method `getContainerNames`: the pair `(names, err)` it returns (`none` for a `nil`
error), and the spy after the call to the Docker client. -/
def getContainerNames (s : Spy) (id : String) :
    Except Abort ((List PublishedName × Option String) × Spy) :=
  let names : List PublishedName := []
  let answer := s.docker.InspectContainer id
  let s := { s with docker := answer.2, trace := s.trace ++ [Call.inspect id] }
  match answer.1 with
  | .ok container => do
    let names := names ++ [{ name := container.Config.Hostname ++ "." ++
                                      container.Config.Domainname ++ ".",
                             ip := container.NetworkSettings.IPAddress }]
    let names ← container.Config.Env.foldlM envLine names
    pure ((names, none), s)
  | .error err => pure ((names, some err), s)

/-- The method `registerName`. -/
def registerName (s : Spy) (name : PublishedName) : Spy :=
  let arpa := (ReverseAddr name.ip).1
  let r : Record := ⟨name.ip, arpa, name.name⟩
  { s with dns := { s.dns with cache := s.dns.cache.Set name.name r },
           trace := s.trace ++ [Call.set name.name r] }

/-- The method `unregisterName`. -/
def unregisterName (s : Spy) (name : PublishedName) : Spy :=
  { s with dns := { s.dns with cache := s.dns.cache.Remove name.name },
           trace := s.trace ++ [Call.remove name.name] }

/-- The method `registerAllNames`. -/
def registerAllNames (s : Spy) (id : String) : Except Abort Spy := do
  let (result, s) ← getContainerNames s id
  if result.2.isSome then
    pure { s with containers := delete s.containers id }
  else
    pure (result.1.foldl (registerName ReverseAddr) s)

/-- The method `unregisterAllNames`. -/
def unregisterAllNames (s : Spy) (id : String) : Except Abort Spy := do
  let (result, s) ← getContainerNames s id
  if result.2.isSome then
    pure { s with containers := delete s.containers id }
  else
    pure (result.1.foldl unregisterName s)

/-- The method `handleContainerEvent`. A lookup of a missing key yields the zero `Container`. -/
def handleContainerEvent (s : Spy) (id : String) (status : String) : Except Abort Spy := do
  let found := s.containers id
  let prev : Container := found.getD { first := "", status := "", created := false }
  let «exists» := found.isSome
  let first := !«exists» && Contains status "create"
  let created := «exists» && Contains prev.first "create"
  let started := created && Contains status "start"
  let register := started || Contains status "Up"
  let finished := Contains status "die"
  let unregister := finished && «exists»
  let update := register || first
  let c : Container := { status := status, created := false, first := "" }
  let c := if first then { c with first := status } else c
  let s := if update then { s with containers := store s.containers id { c with created := true } }
           else s
  let s ← if register then registerAllNames ReverseAddr s id else pure s
  if unregister then
    let s ← unregisterAllNames s id
    pure { s with containers := delete s.containers id }
  else
    pure s

/-- The method `registerRunningContainers`; a failed enumeration ends the process
(`log.Fatalf`). -/
def registerRunningContainers (s : Spy) : Except Abort Spy :=
  match s.docker.ListContainers with
  | .error err => .error (Abort.fatal ("Unable to register running containers: " ++ err))
  | .ok containers =>
    containers.foldlM (fun s listing => handleContainerEvent ReverseAddr s listing.ID listing.Status) s

/-- The method `readEventStream` on the messages the channel delivers before it is closed. -/
def readEventStream (s : Spy) (events : List dockerApi.APIEvents) : Except Abort Spy :=
  events.foldlM (fun s msg => handleContainerEvent ReverseAddr s msg.ID msg.Status) s

end Procedures

/-! ## The override convention, the effects of the procedures, and sample states -/

section Semantics

variable (ReverseAddr : String → String × Option String)

/-- The text before and the text after the first occurrence of `c`, when there is one. -/
def cutAt (c : Char) (s : List Char) : Option (List Char × List Char) :=
  match s.dropWhile (· != c) with
  | [] => none
  | _ :: after => some (s.takeWhile (· != c), after)

/-- The override convention in the spec's words: an entry `KEY=VALUE`, cut at the first `=`,
whose `KEY` starts with `DNS_PUBLISH_NAME_` and whose `VALUE`, cut at the first `:`, is
`NAME:IP`, stands for the published name `NAME.` with address `IP`. -/
def overrideOf (line : String) : Option PublishedName :=
  match cutAt '=' line.data with
  | none => none
  | some (key, value) =>
    if "DNS_PUBLISH_NAME_".data.isPrefixOf key then
      match cutAt ':' value with
      | none => none
      | some (name, ip) => some { name := String.mk (name ++ ['.']), ip := String.mk ip }
    else none

/-- The implicit name of a workload: `hostname + "." + domain + "."` at its primary address. -/
def implicitName (c : dockerApi.Container) : PublishedName :=
  { name := c.Config.Hostname ++ "." ++ c.Config.Domainname ++ ".",
    ip := c.NetworkSettings.IPAddress }

/-- The names of a workload: the implicit name, then the overrides in the order of the
environment entries. -/
def namesOf (c : dockerApi.Container) : List PublishedName :=
  implicitName c :: c.Config.Env.filterMap overrideOf

/-- The pair `(names, err)` that goes with an answer of the Docker client. -/
def resolve : Except String dockerApi.Container → List PublishedName × Option String
  | .ok c => (namesOf c, none)
  | .error err => ([], some err)

/-- The spy once one more `InspectContainer(id)` call has been issued. -/
def Spy.inspected (s : Spy) (id : String) : Spy :=
  { s with docker := { s.docker with asked := s.docker.asked + 1 },
           trace := s.trace ++ [Call.inspect id] }

/-- The record that `registerName` writes for a published name. -/
def recordOf (name : PublishedName) : Record :=
  ⟨name.ip, (ReverseAddr name.ip).1, name.name⟩

/-- The cache call that `registerName` issues for a published name. -/
def setCall (name : PublishedName) : Call :=
  Call.set name.name (recordOf ReverseAddr name)

/-- The cache call that `unregisterName` issues for a published name. -/
def removeCall (name : PublishedName) : Call :=
  Call.remove name.name

/-- The cache after the records of a list of names have been set, in order. -/
def publishAll (c : Cache) (names : List PublishedName) : Cache :=
  names.foldl (fun c n => c.Set n.name (recordOf ReverseAddr n)) c

/-- The cache after a list of names has been removed, in order. -/
def withdrawAll (c : Cache) (names : List PublishedName) : Cache :=
  names.foldl (fun c n => c.Remove n.name) c

/-- What `registerAllNames` leaves behind. -/
def registerAll (s : Spy) (id : String) : Spy :=
  let result := resolve (s.docker.answers s.docker.asked id)
  let s := s.inspected id
  if result.2.isSome then { s with containers := delete s.containers id }
  else result.1.foldl (registerName ReverseAddr) s

/-- What `unregisterAllNames` leaves behind. -/
def unregisterAll (s : Spy) (id : String) : Spy :=
  let result := resolve (s.docker.answers s.docker.asked id)
  let s := s.inspected id
  if result.2.isSome then { s with containers := delete s.containers id }
  else result.1.foldl unregisterName s

/-- What `handleContainerEvent` leaves behind. -/
def step (s : Spy) (id : String) (status : String) : Spy :=
  let found := s.containers id
  let prev : Container := found.getD { first := "", status := "", created := false }
  let first := !found.isSome && Contains status "create"
  let register := (found.isSome && Contains prev.first "create" && Contains status "start")
    || Contains status "Up"
  let unregister := Contains status "die" && found.isSome
  let c : Container := { status := status, created := true, first := if first then status else "" }
  let s := if register || first then { s with containers := store s.containers id c } else s
  let s := if register then registerAll ReverseAddr s id else s
  if unregister then
    let s := unregisterAll s id
    { s with containers := delete s.containers id }
  else s

/-- The decision `register` of the transition procedure. -/
def shouldRegister (s : Spy) (id status : String) : Bool :=
  (match s.containers id with
    | some prev => Contains prev.first "create" && Contains status "start"
    | none => false) || Contains status "Up"

/-- The decision `unregister` of the transition procedure. -/
def shouldWithdraw (s : Spy) (id status : String) : Bool :=
  Contains status "die" && (s.containers id).isSome

/-- The decision `first` of the transition procedure. -/
def isNewCreation (s : Spy) (id status : String) : Bool :=
  !(s.containers id).isSome && Contains status "create"

/-- The names returned to the registration phase (none when it does not run). -/
def published (s : Spy) (id status : String) : List PublishedName :=
  if shouldRegister s id status then (resolve (s.docker.answers s.docker.asked id)).1 else []

/-- The index of the query of the withdrawal phase. -/
def withdrawalQuery (s : Spy) (id status : String) : Nat :=
  s.docker.asked + (if shouldRegister s id status then 1 else 0)

/-- The names returned to the withdrawal phase (none when it does not run). -/
def withdrawn (s : Spy) (id status : String) : List PublishedName :=
  if shouldWithdraw s id status then
    (resolve (s.docker.answers (withdrawalQuery s id status) id)).1
  else []

/-- A reverse-lookup function that reports every address as unsupported; it stands for
`dns.ReverseAddr` in the closed examples, none of which depends on the reverse key. -/
def noReverse : String → String × Option String :=
  fun _ => ("", some "unsupported address")

/-- A workload description as the Docker client returns it, for the closed examples. -/
def sampleContainer (env : List String) : dockerApi.Container :=
  { Config := { Hostname := "web", Domainname := "local", Env := env },
    NetworkSettings := { IPAddress := "172.17.0.2" } }

/-- A spy with nothing tracked, an empty cache and no call issued, as at process start. -/
def freshSpy (docker : dockerApi.Client) : Spy :=
  { docker := docker, dns := ⟨⟨fun _ => none⟩⟩, containers := fun _ => none, trace := [] }

/-- A client that lists the two workloads of the startup example and answers every metadata
query. -/
def startupClient : dockerApi.Client :=
  { ListContainers := .ok [⟨"a", "Up 2 hours"⟩, ⟨"b", "Created"⟩],
    answers := fun _ _ => .ok (sampleContainer []),
    asked := 0 }

/-- The last name of a list that is keyed by `k`, the one whose record a cache holds under `k`
once the whole list has been set. -/
def lastWriter (names : List PublishedName) (k : String) : Option PublishedName :=
  names.reverse.find? (fun n => decide (k = n.name))

/-- A client whose every metadata query succeeds with the same workload description, which
carries one override entry. -/
def steadyClient : dockerApi.Client :=
  { ListContainers := .ok [],
    answers := fun _ _ => .ok (sampleContainer ["DNS_PUBLISH_NAME_X=foo.example.com:10.0.0.5"]),
    asked := 0 }

/-- A spy that tracks the workload "a" as active, with an empty cache. -/
def trackedSpy : Spy :=
  { docker := steadyClient,
    dns := ⟨⟨fun _ => none⟩⟩,
    containers := store (fun _ => none) "a" { first := "", status := "Up 2 hours", created := true },
    trace := [] }

/-- A client whose metadata query fails for the workload "a" and succeeds for every other
identifier. -/
def flakyClient : dockerApi.Client :=
  { ListContainers := .ok [],
    answers := fun _ id =>
      if id = "a" then .error "no such container" else .ok (sampleContainer []),
    asked := 0 }

/-- A client whose every metadata query succeeds with a workload description that carries the
given environment. -/
def envClient (env : List String) : dockerApi.Client :=
  { ListContainers := .ok [], answers := fun _ _ => .ok (sampleContainer env), asked := 0 }

/-- A spy that tracks the workload "a", holds its name in the cache, and whose client fails
for "a". -/
def lostSpy : Spy :=
  { docker := flakyClient,
    dns := ⟨⟨fun k => if k = "web.local." then some ⟨"172.17.0.2", "", "web.local."⟩ else none⟩⟩,
    containers := store (fun _ => none) "a" { first := "", status := "Up 2 hours", created := true },
    trace := [] }

/-- What `readEventStream` leaves behind. -/
def replay (s : Spy) (events : List dockerApi.APIEvents) : Spy :=
  events.foldl (fun s msg => step ReverseAddr s msg.ID msg.Status) s

/-- The decision `update` of the transition procedure: the notification writes an entry. -/
def wrote (s : Spy) (id status : String) : Bool :=
  shouldRegister s id status || isNewCreation s id status

/-- The statuses of the notifications for `id`, in order of processing, for which the decision
`update` held when they were processed. -/
def writes (s : Spy) (id : String) : List dockerApi.APIEvents → List String
  | [] => []
  | msg :: rest =>
    (if msg.ID = id ∧ wrote s id msg.Status = true then [msg.Status] else []) ++
      (match handleContainerEvent ReverseAddr s msg.ID msg.Status with
        | .ok s' => writes s' id rest
        | .error _ => [])

/-- A client whose first metadata query for the workload "a" fails and whose every other
query succeeds. -/
def recoveringClient : dockerApi.Client :=
  { ListContainers := .ok [],
    answers := fun n id =>
      if n = 0 ∧ id = "a" then .error "no such container" else .ok (sampleContainer []),
    asked := 0 }

/-- A spy that tracks the workload "a", holds its name in the cache, and whose client fails
for "a" on the first query only. -/
def recoveringSpy : Spy :=
  { docker := recoveringClient,
    dns := ⟨⟨fun k => if k = "web.local." then some ⟨"172.17.0.2", "", "web.local."⟩ else none⟩⟩,
    containers := store (fun _ => none) "a" { first := "", status := "Up 2 hours", created := true },
    trace := [] }

end Semantics

/-! ## Lemmas on the embedding, and the claims -/

section Lemmas

variable (ReverseAddr : String → String × Option String)

theorem indexOf_isSome_iff (sep s : List Char) : (indexOf sep s).isSome = true ↔ sep <:+: s := by
  induction s with
  | nil =>
    cases sep <;> simp [indexOf, List.isPrefixOf]
  | cons c cs ih =>
    rw [List.infix_cons_iff, ← ih, indexOf]
    by_cases h : sep.isPrefixOf (c :: cs) = true
    · simp [h, List.isPrefixOf_iff_prefix.mp h]
    · have h2 : ¬ sep <+: c :: cs := fun hp => h (List.isPrefixOf_iff_prefix.mpr hp)
      simp [h, h2]

theorem Contains_iff (s substr : String) : Contains s substr = true ↔ substr.data <:+: s.data :=
  indexOf_isSome_iff substr.data s.data

theorem HasPrefix_iff (s p : String) : HasPrefix s p = true ↔ p.data <+: s.data :=
  List.isPrefixOf_iff_prefix

theorem indexOf_single_eq_none {c : Char} {s : List Char} (h : c ∉ s) : indexOf [c] s = none := by
  induction s with
  | nil => simp [indexOf, List.isPrefixOf]
  | cons a as ih =>
    have h1 : c ≠ a := fun e => h (by simp [e])
    have h2 : c ∉ as := fun e => h (by simp [e])
    simp [indexOf, List.isPrefixOf, h1, ih h2]

theorem indexOf_single_append {c : Char} {a : List Char} (b : List Char) (h : c ∉ a) :
    indexOf [c] (a ++ c :: b) = some a.length := by
  induction a with
  | nil => simp [indexOf, List.isPrefixOf]
  | cons x xs ih =>
    have h1 : c ≠ x := fun e => h (by simp [e])
    have h2 : c ∉ xs := fun e => h (by simp [e])
    simp [indexOf, List.isPrefixOf, h1, ih h2]

theorem SplitN_two_of_not_mem (s sep : String) (c : Char) (hsep : sep.data = [c])
    (h : c ∉ s.data) : SplitN s sep 2 = [s] := by
  simp [SplitN, hsep, splitLoop, indexOf_single_eq_none h]

theorem SplitN_two_of_append (s sep : String) (c : Char) (a b : List Char) (hsep : sep.data = [c])
    (hs : s.data = a ++ c :: b) (h : c ∉ a) : SplitN s sep 2 = [String.mk a, String.mk b] := by
  simp [SplitN, hsep, splitLoop, hs, indexOf_single_append b h]

theorem cutAt_of_not_mem {c : Char} {s : List Char} (h : c ∉ s) : cutAt c s = none := by
  have : s.dropWhile (· != c) = [] := by
    rw [List.dropWhile_eq_nil_iff]
    intro x hx
    have : x ≠ c := fun e => h (e ▸ hx)
    simpa using this
  simp [cutAt, this]

theorem cutAt_append {c : Char} {a : List Char} (b : List Char) (h : c ∉ a) :
    cutAt c (a ++ c :: b) = some (a, b) := by
  have hall : ∀ x ∈ a, (x != c) = true := by
    intro x hx
    have : x ≠ c := fun e => h (e ▸ hx)
    simpa using this
  have h1 : (a ++ c :: b).dropWhile (· != c) = c :: b := by
    rw [List.dropWhile_append_of_pos hall]; simp [List.dropWhile]
  have h2 : (a ++ c :: b).takeWhile (· != c) = a := by
    rw [List.takeWhile_append_of_pos hall]; simp [List.takeWhile]
  simp [cutAt, h1, h2]

theorem exists_first_occurrence {c : Char} {s : List Char} (h : c ∈ s) :
    ∃ a b, s = a ++ c :: b ∧ c ∉ a := by
  induction s with
  | nil => simp at h
  | cons x xs ih =>
    by_cases hx : c = x
    · exact ⟨[], xs, by simp [hx], by simp⟩
    · have : c ∈ xs := by simpa [hx] using h
      obtain ⟨a, b, hab, hn⟩ := ih this
      exact ⟨x :: a, b, by simp [hab], by simp [hx, hn]⟩

theorem string_mk_append_dot (n : List Char) : String.mk n ++ "." = String.mk (n ++ ['.']) := by
  apply String.ext; simp

theorem envLine_eq (names : List PublishedName) (line : String) :
    envLine names line = .ok (names ++ (overrideOf line).toList) := by
  by_cases he : '=' ∈ line.data
  · obtain ⟨k, v, hkv, hk⟩ := exists_first_occurrence he
    have hs := SplitN_two_of_append line "=" '=' k v rfl hkv hk
    have hc := cutAt_append v hk
    by_cases hp : "DNS_PUBLISH_NAME_".data.isPrefixOf k = true
    · have hp2 : HasPrefix (String.mk k) "DNS_PUBLISH_NAME_" = true := hp
      by_cases hv : ':' ∈ v
      · obtain ⟨n, i, hni, hn⟩ := exists_first_occurrence hv
        have hs2 := SplitN_two_of_append (String.mk v) ":" ':' n i rfl hni hn
        have hc2 := cutAt_append i hn
        rw [← hni] at hc2
        simp only [envLine, hs, index, overrideOf, hkv, hc, hp, hc2]
        simp [bind, Except.bind, pure, Except.pure, hp2, hs2, string_mk_append_dot]
      · have hs2 := SplitN_two_of_not_mem (String.mk v) ":" ':' rfl hv
        have hc2 := cutAt_of_not_mem hv
        simp only [envLine, hs, index, overrideOf, hkv, hc, hp, hc2]
        simp [bind, Except.bind, pure, Except.pure, hp2, hs2]
    · have hp2 : HasPrefix (String.mk k) "DNS_PUBLISH_NAME_" = false :=
        Bool.eq_false_iff.mpr hp
      simp only [envLine, hs, index, overrideOf, hkv, hc, hp]
      simp [bind, Except.bind, pure, Except.pure, hp2]
  · have hs := SplitN_two_of_not_mem line "=" '=' rfl he
    have hc := cutAt_of_not_mem he
    simp only [envLine, hs, index, overrideOf, hc]
    simp [bind, Except.bind, pure, Except.pure]

theorem foldlM_envLine (env : List String) (names : List PublishedName) :
    env.foldlM envLine names = .ok (names ++ env.filterMap overrideOf) := by
  induction env generalizing names with
  | nil => simp [pure, Except.pure]
  | cons line rest ih =>
    rw [List.foldlM_cons, envLine_eq]
    show List.foldlM envLine (names ++ (overrideOf line).toList) rest = _
    rw [ih]
    cases h : overrideOf line <;> simp [List.filterMap_cons, h]

theorem getContainerNames_eq (s : Spy) (id : String) :
    getContainerNames s id =
      .ok (resolve (s.docker.answers s.docker.asked id), s.inspected id) := by
  unfold getContainerNames
  simp only [dockerApi.Client.InspectContainer]
  cases h : s.docker.answers s.docker.asked id with
  | error err => rfl
  | ok c =>
    simp only [foldlM_envLine, List.nil_append]
    rfl

theorem registerAllNames_eq (s : Spy) (id : String) :
    registerAllNames ReverseAddr s id = .ok (registerAll ReverseAddr s id) := by
  unfold registerAllNames registerAll
  rw [getContainerNames_eq]
  by_cases h : (resolve (s.docker.answers s.docker.asked id)).2.isSome = true <;>
    simp [bind, Except.bind, pure, Except.pure, h]

theorem unregisterAllNames_eq (s : Spy) (id : String) :
    unregisterAllNames s id = .ok (unregisterAll s id) := by
  unfold unregisterAllNames unregisterAll
  rw [getContainerNames_eq]
  by_cases h : (resolve (s.docker.answers s.docker.asked id)).2.isSome = true <;>
    simp [bind, Except.bind, pure, Except.pure, h]

theorem handleContainerEvent_eq (s : Spy) (id : String) (status : String) :
    handleContainerEvent ReverseAddr s id status = .ok (step ReverseAddr s id status) := by
  unfold handleContainerEvent step
  cases hf : s.containers id with
  | none =>
    cases hc : Contains status "create" <;> cases hu : Contains status "Up" <;>
      cases hd : Contains status "die" <;>
      simp [registerAllNames_eq, unregisterAllNames_eq, bind, Except.bind, pure, Except.pure]
  | some prev =>
    cases hp : Contains prev.first "create" <;> cases hs : Contains status "start" <;>
      cases hu : Contains status "Up" <;> cases hd : Contains status "die" <;>
      simp [registerAllNames_eq, unregisterAllNames_eq, bind, Except.bind, pure, Except.pure, hp]

theorem resolve_names_of_error (x : Except String dockerApi.Container)
    (h : (resolve x).2.isSome = true) : (resolve x).1 = [] := by
  cases x with
  | error e => rfl
  | ok c => simp [resolve] at h

theorem foldl_registerName (names : List PublishedName) (s : Spy) :
    names.foldl (registerName ReverseAddr) s =
      { s with dns := ⟨publishAll ReverseAddr s.dns.cache names⟩,
               trace := s.trace ++ names.map (setCall ReverseAddr) } := by
  induction names generalizing s with
  | nil => simp [publishAll]
  | cons n ns ih =>
    rw [List.foldl_cons, ih]
    simp [registerName, publishAll, setCall, recordOf]

theorem foldl_unregisterName (names : List PublishedName) (s : Spy) :
    names.foldl unregisterName s =
      { s with dns := ⟨withdrawAll s.dns.cache names⟩,
               trace := s.trace ++ names.map removeCall } := by
  induction names generalizing s with
  | nil => simp [withdrawAll]
  | cons n ns ih =>
    rw [List.foldl_cons, ih]
    simp [unregisterName, withdrawAll, removeCall]

theorem registerAll_eq (s : Spy) (id : String) :
    registerAll ReverseAddr s id =
      { docker := { s.docker with asked := s.docker.asked + 1 },
        dns := ⟨publishAll ReverseAddr s.dns.cache (resolve (s.docker.answers s.docker.asked id)).1⟩,
        containers := if (resolve (s.docker.answers s.docker.asked id)).2.isSome
          then delete s.containers id else s.containers,
        trace := s.trace ++ Call.inspect id ::
          (resolve (s.docker.answers s.docker.asked id)).1.map (setCall ReverseAddr) } := by
  unfold registerAll
  by_cases h : (resolve (s.docker.answers s.docker.asked id)).2.isSome = true
  · simp [h, resolve_names_of_error _ h, Spy.inspected, publishAll]
  · simp [h, foldl_registerName, Spy.inspected]

theorem unregisterAll_eq (s : Spy) (id : String) :
    unregisterAll s id =
      { docker := { s.docker with asked := s.docker.asked + 1 },
        dns := ⟨withdrawAll s.dns.cache (resolve (s.docker.answers s.docker.asked id)).1⟩,
        containers := if (resolve (s.docker.answers s.docker.asked id)).2.isSome
          then delete s.containers id else s.containers,
        trace := s.trace ++ Call.inspect id ::
          (resolve (s.docker.answers s.docker.asked id)).1.map removeCall } := by
  unfold unregisterAll
  by_cases h : (resolve (s.docker.answers s.docker.asked id)).2.isSome = true
  · simp [h, resolve_names_of_error _ h, Spy.inspected, withdrawAll]
  · simp [h, foldl_unregisterName, Spy.inspected]

theorem step_trace (s : Spy) (id status : String) :
    (step ReverseAddr s id status).trace =
      s.trace ++ (if shouldRegister s id status then
          Call.inspect id :: (published s id status).map (setCall ReverseAddr) else []) ++
        (if shouldWithdraw s id status then
          Call.inspect id :: (withdrawn s id status).map removeCall else []) := by
  unfold step
  cases hf : s.containers id with
  | none =>
    cases hc : Contains status "create" <;> cases hu : Contains status "Up" <;>
      cases hd : Contains status "die" <;>
      simp [registerAll_eq, unregisterAll_eq, shouldRegister, shouldWithdraw, published, withdrawn,
        withdrawalQuery, isNewCreation, hc, hu, hd, hf]
  | some prev =>
    cases hp : Contains prev.first "create" <;> cases hs : Contains status "start" <;>
      cases hu : Contains status "Up" <;> cases hd : Contains status "die" <;>
      simp [registerAll_eq, unregisterAll_eq, shouldRegister, shouldWithdraw, published, withdrawn,
        withdrawalQuery, isNewCreation, hs, hu, hd, hp, hf]

theorem step_cache (s : Spy) (id status : String) :
    (step ReverseAddr s id status).dns.cache =
      withdrawAll (publishAll ReverseAddr s.dns.cache (published s id status))
        (withdrawn s id status) := by
  unfold step
  cases hf : s.containers id with
  | none =>
    cases hc : Contains status "create" <;> cases hu : Contains status "Up" <;>
      cases hd : Contains status "die" <;>
      simp [registerAll_eq, unregisterAll_eq, shouldRegister, shouldWithdraw, published, withdrawn,
        withdrawalQuery, isNewCreation, hc, hu, hd, hf, publishAll, withdrawAll]
  | some prev =>
    cases hp : Contains prev.first "create" <;> cases hs : Contains status "start" <;>
      cases hu : Contains status "Up" <;> cases hd : Contains status "die" <;>
      simp [registerAll_eq, unregisterAll_eq, shouldRegister, shouldWithdraw, published, withdrawn,
        withdrawalQuery, isNewCreation, hs, hu, hd, hp, hf, publishAll, withdrawAll]

theorem step_asked (s : Spy) (id status : String) :
    (step ReverseAddr s id status).docker =
      { s.docker with asked := withdrawalQuery s id status +
          (if shouldWithdraw s id status then 1 else 0) } := by
  unfold step
  cases hf : s.containers id with
  | none =>
    cases hc : Contains status "create" <;> cases hu : Contains status "Up" <;>
      cases hd : Contains status "die" <;>
      simp [registerAll_eq, unregisterAll_eq, shouldRegister, shouldWithdraw, published, withdrawn,
        withdrawalQuery, isNewCreation, hc, hu, hd, hf]
  | some prev =>
    cases hp : Contains prev.first "create" <;> cases hs : Contains status "start" <;>
      cases hu : Contains status "Up" <;> cases hd : Contains status "die" <;>
      simp [registerAll_eq, unregisterAll_eq, shouldRegister, shouldWithdraw, published, withdrawn,
        withdrawalQuery, isNewCreation, hs, hu, hd, hp, hf]

theorem step_containers_of_ne (s : Spy) (id status k : String) (hk : k ≠ id) :
    (step ReverseAddr s id status).containers k = s.containers k := by
  unfold step
  cases hf : s.containers id with
  | none =>
    cases hc : Contains status "create" <;> cases hu : Contains status "Up" <;>
      cases hd : Contains status "die" <;>
      simp [registerAll_eq, unregisterAll_eq, shouldRegister, shouldWithdraw, published, withdrawn,
        withdrawalQuery, isNewCreation, hc, hu, hd, hf, store, delete, hk, ite_apply]
  | some prev =>
    cases hp : Contains prev.first "create" <;> cases hs : Contains status "start" <;>
      cases hu : Contains status "Up" <;> cases hd : Contains status "die" <;>
      simp [registerAll_eq, unregisterAll_eq, shouldRegister, shouldWithdraw, published, withdrawn,
        withdrawalQuery, isNewCreation, hs, hu, hd, hp, hf, store, delete, hk, ite_apply]

theorem step_containers_self (s : Spy) (id status : String) :
    (step ReverseAddr s id status).containers id =
      if shouldWithdraw s id status then none
      else if shouldRegister s id status then
        (if (resolve (s.docker.answers s.docker.asked id)).2.isSome then none
         else some { first := if isNewCreation s id status then status else "",
                     status := status, created := true })
      else if isNewCreation s id status then
        some { first := status, status := status, created := true }
      else s.containers id := by
  unfold step
  cases hf : s.containers id with
  | none =>
    cases hc : Contains status "create" <;> cases hu : Contains status "Up" <;>
      cases hd : Contains status "die" <;>
      simp [registerAll_eq, unregisterAll_eq, shouldRegister, shouldWithdraw, published, withdrawn,
        withdrawalQuery, isNewCreation, hc, hu, hd, hf, store, delete, ite_apply]
  | some prev =>
    cases hp : Contains prev.first "create" <;> cases hs : Contains status "start" <;>
      cases hu : Contains status "Up" <;> cases hd : Contains status "die" <;>
      simp [registerAll_eq, unregisterAll_eq, shouldRegister, shouldWithdraw, published, withdrawn,
        withdrawalQuery, isNewCreation, hs, hu, hd, hp, hf, store, delete, ite_apply]

theorem step_eq_self (s : Spy) (id status : String) (hr : shouldRegister s id status = false)
    (hw : shouldWithdraw s id status = false) (hn : isNewCreation s id status = false) :
    step ReverseAddr s id status = s := by
  have hr2 : ((s.containers id).isSome &&
      Contains ((s.containers id).getD { first := "", status := "", created := false }).first
        "create" && Contains status "start" || Contains status "Up") = false := by
    rw [← hr]; unfold shouldRegister
    cases s.containers id <;> simp
  have hw2 : (Contains status "die" && (s.containers id).isSome) = false := hw
  have hn2 : (!(s.containers id).isSome && Contains status "create") = false := hn
  simp only [step, hr2, hw2, hn2]
  simp

theorem shouldRegister_iff (s : Spy) (id status : String) :
    shouldRegister s id status = true ↔
      ((∃ prev, s.containers id = some prev ∧ Contains prev.first "create" = true ∧
          Contains status "start" = true) ∨ Contains status "Up" = true) := by
  unfold shouldRegister
  cases s.containers id <;> simp

theorem isSet_setCall_false_of_removes (names : List PublishedName) :
    ∀ c ∈ names.map removeCall, c.isSet = false := by
  intro c hc
  obtain ⟨n, _, rfl⟩ := List.mem_map.mp hc
  rfl

/-- C1: `handleContainerEvent` always returns, and with `names` the list the metadata resolver
returns for `id`: the decision `shouldRegister` is the disjunction of the claim; when it holds the
calls issued start with the query for `id` followed by one cache `Set` per returned name, in
order, and no further `Set` follows; when it does not hold no `Set` is issued at all, and no
call whatsoever unless the identifier is tracked and the status contains "die" (withdrawal). -/
theorem handleContainerEvent_registers_iff_shouldRegister (s : Spy) (id status : String) :
    ∃ s' names err after,
      handleContainerEvent ReverseAddr s id status = .ok s' ∧
      getContainerNames s id = .ok ((names, err), after) ∧
      (shouldRegister s id status = true ↔
        ((∃ prev, s.containers id = some prev ∧ Contains prev.first "create" = true ∧
            Contains status "start" = true) ∨ Contains status "Up" = true)) ∧
      (shouldRegister s id status = true →
        ∃ rest, s'.trace =
            s.trace ++ Call.inspect id :: names.map (setCall ReverseAddr) ++ rest ∧
          ∀ c ∈ rest, c.isSet = false) ∧
      (shouldRegister s id status = false →
        (∃ rest, s'.trace = s.trace ++ rest ∧ ∀ c ∈ rest, c.isSet = false) ∧
        ((s.containers id = none ∨ Contains status "die" = false) → s'.trace = s.trace)) := by
  refine ⟨step ReverseAddr s id status, (resolve (s.docker.answers s.docker.asked id)).1,
    (resolve (s.docker.answers s.docker.asked id)).2, s.inspected id,
    handleContainerEvent_eq ReverseAddr s id status,
    getContainerNames_eq s id, shouldRegister_iff s id status, ?_, ?_⟩
  · intro hr
    refine ⟨if shouldWithdraw s id status then
        Call.inspect id :: (withdrawn s id status).map removeCall else [], ?_, ?_⟩
    · rw [step_trace]; simp [hr, published]
    · intro c hc
      split at hc
      · rcases List.mem_cons.mp hc with rfl | h
        · rfl
        · exact isSet_setCall_false_of_removes _ c h
      · simp at hc
  · intro hr
    refine ⟨⟨if shouldWithdraw s id status then
        Call.inspect id :: (withdrawn s id status).map removeCall else [], ?_, ?_⟩, ?_⟩
    · rw [step_trace]; simp [hr]
    · intro c hc
      split at hc
      · rcases List.mem_cons.mp hc with rfl | h
        · rfl
        · exact isSet_setCall_false_of_removes _ c h
      · simp at hc
    · intro h
      have hw : shouldWithdraw s id status = false := by
        unfold shouldWithdraw
        rcases h with h | h <;> simp [h]
      rw [step_trace]; simp [hr, hw]

theorem publishAll_append (c : Cache) (xs ys : List PublishedName) :
    publishAll ReverseAddr c (xs ++ ys) = publishAll ReverseAddr (publishAll ReverseAddr c xs) ys := by
  simp [publishAll]

theorem publishAll_entries (c : Cache) (names : List PublishedName) (k : String) :
    (publishAll ReverseAddr c names).entries k =
      match lastWriter names k with
      | some n => some (recordOf ReverseAddr n)
      | none => c.entries k := by
  induction names using List.reverseRecOn with
  | nil => simp [publishAll, lastWriter]
  | append_singleton xs x ih =>
    rw [publishAll_append]
    by_cases hk : k = x.name
    · simp [publishAll, Cache.Set, lastWriter, hk]
    · have : lastWriter (xs ++ [x]) k = lastWriter xs k := by
        simp [lastWriter, hk]
      rw [this, ← ih]
      simp [publishAll, Cache.Set, hk]

theorem lastWriter_of_mem {names : List PublishedName} {n : PublishedName} (h : n ∈ names) :
    ∃ w ∈ names, w.name = n.name ∧ lastWriter names n.name = some w := by
  have hs : (names.reverse.find? (fun m => decide (n.name = m.name))).isSome = true := by
    rw [List.find?_isSome]
    exact ⟨n, List.mem_reverse.mpr h, by simp⟩
  obtain ⟨w, hw⟩ := Option.isSome_iff_exists.mp hs
  refine ⟨w, List.mem_reverse.mp (List.mem_of_find?_eq_some hw), ?_, hw⟩
  have := List.find?_some hw
  exact (of_decide_eq_true this).symm

theorem publishAll_idem (c : Cache) (names : List PublishedName) :
    (publishAll ReverseAddr (publishAll ReverseAddr c names) names).entries =
      (publishAll ReverseAddr c names).entries := by
  funext k
  rw [publishAll_entries ReverseAddr (publishAll ReverseAddr c names), publishAll_entries]
  cases lastWriter names k <;> rfl

theorem withdrawAll_entries (c : Cache) (names : List PublishedName) (k : String) :
    (withdrawAll c names).entries k =
      if k ∈ names.map (·.name) then none else c.entries k := by
  induction names generalizing c with
  | nil => simp [withdrawAll]
  | cons x xs ih =>
    have : withdrawAll c (x :: xs) = withdrawAll (c.Remove x.name) xs := rfl
    rw [this, ih]
    by_cases hk : k = x.name
    · simp [Cache.Remove, hk]
    · by_cases hm : k ∈ xs.map (·.name)
      · simp [hm]
      · simp [Cache.Remove, hk, hm]

/-- C2, as stated, fails: the status "Created" does not contain "create", so after the startup
pass over the workloads "a" ("Up 2 hours") and "b" ("Created") the first is tracked active and
the second is absent from the mapping. -/
theorem startup_created_workload_not_tracked :
    ∃ s', registerRunningContainers noReverse (freshSpy startupClient) = .ok s' ∧
      s'.containers "a" = some { first := "", status := "Up 2 hours", created := true } ∧
      s'.containers "b" = none :=
  ⟨_, rfl, rfl, rfl⟩

theorem registerRunningContainers_two (s : Spy) (x y : dockerApi.APIContainers)
    (hlist : s.docker.ListContainers = .ok [x, y]) :
    registerRunningContainers ReverseAddr s =
      .ok (step ReverseAddr (step ReverseAddr s x.ID x.Status) y.ID y.Status) := by
  unfold registerRunningContainers
  rw [hlist]
  simp [List.foldlM, handleContainerEvent_eq, bind, Except.bind, pure, Except.pure]

/-- C2 (amended): from an empty tracked mapping, when the enumeration returns the workloads `a`
with status "Up 2 hours" and `b ≠ a` with status "Created" and the metadata query for `a`
succeeds, `registerRunningContainers` returns; afterwards `a` is tracked with `created = true`,
every name returned for `a` is held by the cache (with the record of the last returned name
of that key), `b` is absent from the mapping, and the only calls issued are the query for `a`
and the `Set`s of its names. -/
theorem registerRunningContainers_up_and_created (s : Spy) (a b : String)
    (c : dockerApi.Container) (hab : a ≠ b) (hempty : ∀ k, s.containers k = none)
    (hlist : s.docker.ListContainers = .ok [⟨a, "Up 2 hours"⟩, ⟨b, "Created"⟩])
    (hq : s.docker.answers s.docker.asked a = .ok c) :
    ∃ s' names after,
      registerRunningContainers ReverseAddr s = .ok s' ∧
      getContainerNames s a = .ok ((names, none), after) ∧
      s'.containers a = some { first := "", status := "Up 2 hours", created := true } ∧
      (∀ n ∈ names, ∃ w ∈ names, w.name = n.name ∧
        s'.dns.cache.entries n.name = some (recordOf ReverseAddr w)) ∧
      s'.containers b = none ∧
      s'.trace = s.trace ++ Call.inspect a :: names.map (setCall ReverseAddr) := by
  have hup : Contains "Up 2 hours" "Up" = true := by decide
  have hr1 : shouldRegister s a "Up 2 hours" = true := by simp [shouldRegister, hup]
  have hw1 : shouldWithdraw s a "Up 2 hours" = false := by
    simp [shouldWithdraw, hempty]
  have hn1 : isNewCreation s a "Up 2 hours" = false := by
    have : Contains "Up 2 hours" "create" = false := by decide
    simp [isNewCreation, this]
  have hres : resolve (s.docker.answers s.docker.asked a) = (namesOf c, none) := by
    rw [hq]; rfl
  have hb1 : (step ReverseAddr s a "Up 2 hours").containers b = none := by
    rw [step_containers_of_ne _ _ _ _ _ (Ne.symm hab)]; exact hempty b
  have hr2 : shouldRegister (step ReverseAddr s a "Up 2 hours") b "Created" = false := by
    have h1 : Contains "Created" "Up" = false := by decide
    simp [shouldRegister, hb1, h1]
  have hw2 : shouldWithdraw (step ReverseAddr s a "Up 2 hours") b "Created" = false := by
    simp [shouldWithdraw, hb1]
  have hn2 : isNewCreation (step ReverseAddr s a "Up 2 hours") b "Created" = false := by
    have h1 : Contains "Created" "create" = false := by decide
    simp [isNewCreation, h1]
  refine ⟨step ReverseAddr s a "Up 2 hours", namesOf c, s.inspected a, ?_, ?_, ?_, ?_, hb1, ?_⟩
  · rw [registerRunningContainers_two ReverseAddr s _ _ hlist]
    simp only [step_eq_self ReverseAddr _ b "Created" hr2 hw2 hn2]
  · rw [getContainerNames_eq, hres]
  · rw [step_containers_self]; simp [hr1, hw1, hn1, hres]
  · intro n hn
    obtain ⟨w, hw, hwn, hlast⟩ := lastWriter_of_mem hn
    refine ⟨w, hw, hwn, ?_⟩
    rw [step_cache, withdrawn, hw1]
    simp only [Bool.false_eq_true, if_false, withdrawAll, List.foldl_nil]
    rw [publishAll_entries, published, hr1]
    simp [hres, hlast]
  · rw [step_trace]; simp [hr1, hw1, published, hres]

/-- The hypotheses of `registerRunningContainers_up_and_created` hold for the fresh spy of the
startup example, and the theorem applies to it. -/
theorem registerRunningContainers_up_and_created_witness :
    "a" ≠ "b" ∧ (∀ k, (freshSpy startupClient).containers k = none) ∧
    ∃ s' names after,
      registerRunningContainers noReverse (freshSpy startupClient) = .ok s' ∧
      getContainerNames (freshSpy startupClient) "a" = .ok ((names, none), after) ∧
      s'.containers "a" = some { first := "", status := "Up 2 hours", created := true } ∧
      (∀ n ∈ names, ∃ w ∈ names, w.name = n.name ∧
        s'.dns.cache.entries n.name = some (recordOf noReverse w)) ∧
      s'.containers "b" = none ∧
      s'.trace = (freshSpy startupClient).trace ++
        Call.inspect "a" :: names.map (setCall noReverse) :=
  ⟨by decide, fun _ => rfl,
    registerRunningContainers_up_and_created noReverse (freshSpy startupClient) "a" "b"
      (sampleContainer []) (by decide) (fun _ => rfl) rfl rfl⟩

/-- C3, as stated, fails for a status that contains both "Up" and "die": the workload "a" is
tracked active and every query returns the same answer, yet one call of `handleContainerEvent`
with "Up die" leaves "a" untracked and its name out of the cache, and a second call leaves "a"
tracked and its name in the cache. -/
theorem up_die_twice_differs_from_once :
    trackedSpy.containers "a" = some { first := "", status := "Up 2 hours", created := true } ∧
    Contains "Up die" "Up" = true ∧
    ∃ s1 s2,
      handleContainerEvent noReverse trackedSpy "a" "Up die" = .ok s1 ∧
      handleContainerEvent noReverse s1 "a" "Up die" = .ok s2 ∧
      s1.containers "a" = none ∧
      s2.containers "a" = some { first := "", status := "Up die", created := true } ∧
      s1.dns.cache.entries "web.local." = none ∧
      s2.dns.cache.entries "web.local." = some ⟨"172.17.0.2", "", "web.local."⟩ :=
  ⟨rfl, by decide, _, _, rfl, rfl, rfl, rfl, rfl, rfl⟩

/-- C3 (amended): for an identifier present in the tracked mapping, a status that contains "Up"
and does not contain "die", and a metadata query that returns the same successful answer both
times, `handleContainerEvent` returns both times, and the second call leaves the tracked mapping
and the cache exactly as the first call left them; both calls issue the same query and the same
`Set`s. -/
theorem handleContainerEvent_up_idempotent (s : Spy) (id status : String) (prev : Container)
    (c : dockerApi.Container) (hp : s.containers id = some prev)
    (hup : Contains status "Up" = true) (hnd : Contains status "die" = false)
    (hq0 : s.docker.answers s.docker.asked id = .ok c)
    (hq1 : s.docker.answers (s.docker.asked + 1) id = .ok c) :
    ∃ (s1 s2 : Spy) (names : List PublishedName),
      handleContainerEvent ReverseAddr s id status = .ok s1 ∧
      handleContainerEvent ReverseAddr s1 id status = .ok s2 ∧
      s2.containers = s1.containers ∧
      s2.dns.cache.entries = s1.dns.cache.entries ∧
      s1.trace = s.trace ++ Call.inspect id :: names.map (setCall ReverseAddr) ∧
      s2.trace = s1.trace ++ Call.inspect id :: names.map (setCall ReverseAddr) := by
  have hr : shouldRegister s id status = true := by simp [shouldRegister, hup]
  have hw : shouldWithdraw s id status = false := by simp [shouldWithdraw, hnd]
  have hn : isNewCreation s id status = false := by simp [isNewCreation, hp]
  have hres0 : resolve (s.docker.answers s.docker.asked id) = (namesOf c, none) := by
    rw [hq0]; rfl
  have hd1 : (step ReverseAddr s id status).docker =
      { s.docker with asked := s.docker.asked + 1 } := by
    rw [step_asked]; simp [withdrawalQuery, hr, hw]
  have hc1 : (step ReverseAddr s id status).containers id =
      some { first := "", status := status, created := true } := by
    rw [step_containers_self]; simp [hr, hw, hn, hres0]
  have hr' : shouldRegister (step ReverseAddr s id status) id status = true := by
    simp [shouldRegister, hup]
  have hw' : shouldWithdraw (step ReverseAddr s id status) id status = false := by
    simp [shouldWithdraw, hnd]
  have hn' : isNewCreation (step ReverseAddr s id status) id status = false := by
    simp [isNewCreation, hc1]
  have hres1 : resolve ((step ReverseAddr s id status).docker.answers
      (step ReverseAddr s id status).docker.asked id) = (namesOf c, none) := by
    rw [hd1]; simp only []; rw [hq1]; rfl
  refine ⟨step ReverseAddr s id status,
    step ReverseAddr (step ReverseAddr s id status) id status, namesOf c,
    handleContainerEvent_eq _ _ _ _, handleContainerEvent_eq _ _ _ _, ?_, ?_, ?_, ?_⟩
  · funext k
    by_cases hk : k = id
    · subst hk
      rw [step_containers_self ReverseAddr (step ReverseAddr s k status), hc1]
      simp [hr', hw', hn', hres1]
    · rw [step_containers_of_ne _ _ _ _ _ hk]
  · rw [step_cache ReverseAddr (step ReverseAddr s id status), step_cache ReverseAddr s]
    simp only [withdrawn, published, hw, hw', hr, hr', hres0, hres1, Bool.false_eq_true,
      if_false, if_true, withdrawAll, List.foldl_nil]
    exact publishAll_idem ReverseAddr _ _
  · rw [step_trace]; simp [hr, hw, published, hres0]
  · rw [step_trace ReverseAddr (step ReverseAddr s id status)]
    simp [hr', hw', published, hres1]

/-- The hypotheses of `handleContainerEvent_up_idempotent` hold for the tracked workload "a" of
`trackedSpy` and the status "Up 3 hours", and the theorem applies to them. -/
theorem handleContainerEvent_up_idempotent_witness :
    Contains "Up 3 hours" "Up" = true ∧ Contains "Up 3 hours" "die" = false ∧
    ∃ (s1 s2 : Spy) (names : List PublishedName),
      handleContainerEvent noReverse trackedSpy "a" "Up 3 hours" = .ok s1 ∧
      handleContainerEvent noReverse s1 "a" "Up 3 hours" = .ok s2 ∧
      s2.containers = s1.containers ∧
      s2.dns.cache.entries = s1.dns.cache.entries ∧
      s1.trace = trackedSpy.trace ++ Call.inspect "a" :: names.map (setCall noReverse) ∧
      s2.trace = s1.trace ++ Call.inspect "a" :: names.map (setCall noReverse) :=
  ⟨by decide, by decide,
    handleContainerEvent_up_idempotent noReverse trackedSpy "a" "Up 3 hours"
      { first := "", status := "Up 2 hours", created := true }
      (sampleContainer ["DNS_PUBLISH_NAME_X=foo.example.com:10.0.0.5"])
      rfl (by decide) (by decide) rfl rfl⟩

/-- C4, as stated, fails for a status that contains "die" together with "Up": for the
untracked identifier "a" of a fresh spy, `handleContainerEvent` with "Up die" stores an entry
and publishes the workload's name. -/
theorem die_with_up_for_untracked_not_noop :
    (freshSpy steadyClient).containers "a" = none ∧
    Contains "Up die" "die" = true ∧
    ∃ s',
      handleContainerEvent noReverse (freshSpy steadyClient) "a" "Up die" = .ok s' ∧
      s'.containers "a" = some { first := "", status := "Up die", created := true } ∧
      (freshSpy steadyClient).dns.cache.entries "web.local." = none ∧
      s'.dns.cache.entries "web.local." = some ⟨"172.17.0.2", "", "web.local."⟩ :=
  ⟨rfl, by decide, _, rfl, rfl, rfl, rfl⟩

/-- C4 (amended): for an identifier that is not in the tracked mapping and a status that
contains "die" and contains neither "create" nor "Up", `handleContainerEvent` returns and
changes nothing: the tracked mapping, the cache and the list of issued calls are as before. -/
theorem handleContainerEvent_die_untracked_noop (s : Spy) (id status : String)
    (habs : s.containers id = none) (_hd : Contains status "die" = true)
    (hnc : Contains status "create" = false) (hnu : Contains status "Up" = false) :
    handleContainerEvent ReverseAddr s id status = .ok s := by
  rw [handleContainerEvent_eq, step_eq_self]
  · simp [shouldRegister, habs, hnu]
  · simp [shouldWithdraw, habs]
  · simp [isNewCreation, hnc]

/-- The hypotheses of `handleContainerEvent_die_untracked_noop` hold for the untracked
identifier "a" of a fresh spy and the status "die", and the theorem applies to them. -/
theorem handleContainerEvent_die_untracked_noop_witness :
    (freshSpy steadyClient).containers "a" = none ∧ Contains "die" "die" = true ∧
    Contains "die" "create" = false ∧ Contains "die" "Up" = false ∧
    handleContainerEvent noReverse (freshSpy steadyClient) "a" "die" =
      .ok (freshSpy steadyClient) :=
  ⟨rfl, by decide, by decide, by decide,
    handleContainerEvent_die_untracked_noop noReverse (freshSpy steadyClient) "a" "die"
      rfl (by decide) (by decide) (by decide)⟩

theorem step_answers (s : Spy) (id status : String) :
    (step ReverseAddr s id status).docker.answers = s.docker.answers := by
  rw [step_asked]

theorem step_congr (s t : Spy) (id status : String)
    (hc : s.containers id = t.containers id) (hcache : s.dns.cache = t.dns.cache)
    (h0 : s.docker.answers s.docker.asked id = t.docker.answers t.docker.asked id)
    (h1 : s.docker.answers (s.docker.asked + 1) id = t.docker.answers (t.docker.asked + 1) id) :
    (step ReverseAddr s id status).containers id = (step ReverseAddr t id status).containers id ∧
    (step ReverseAddr s id status).dns.cache = (step ReverseAddr t id status).dns.cache ∧
    (step ReverseAddr s id status).trace.drop s.trace.length =
      (step ReverseAddr t id status).trace.drop t.trace.length := by
  have hr : shouldRegister s id status = shouldRegister t id status := by
    simp [shouldRegister, hc]
  have hw : shouldWithdraw s id status = shouldWithdraw t id status := by
    simp [shouldWithdraw, hc]
  have hn : isNewCreation s id status = isNewCreation t id status := by
    simp [isNewCreation, hc]
  have hp : published s id status = published t id status := by
    simp [published, hr, h0]
  have hwd : withdrawn s id status = withdrawn t id status := by
    unfold withdrawn withdrawalQuery
    rw [hw, hr]
    cases shouldRegister t id status <;> simp [h0, h1]
  refine ⟨?_, ?_, ?_⟩
  · rw [step_containers_self, step_containers_self, hr, hw, hn, h0, hc]
  · rw [step_cache, step_cache, hp, hwd, hcache]
  · rw [step_trace, step_trace, hp, hwd, hr, hw]
    simp [List.append_assoc]

/-- C5: for an identifier absent from the mapping, three notifications in a row whose statuses
contain "create" (and not "Up"), "start" (and not "die") and "die" (and not "Up"), the metadata
query answering `c` at the start step and at the die step: all three calls return; the create
step issues no call; with `names` the list the resolver returns, the start step issues the
query and one `Set` per name, the die step issues the query and one `Remove` per name, for the
same names in the same order; afterwards none of these names is in the cache and the
identifier is not in the mapping. -/
theorem create_start_die_round_trip (s : Spy) (id st1 st2 st3 : String)
    (c : dockerApi.Container) (habs : s.containers id = none)
    (h1 : Contains st1 "create" = true) (h1u : Contains st1 "Up" = false)
    (h2 : Contains st2 "start" = true) (h2d : Contains st2 "die" = false)
    (h3 : Contains st3 "die" = true) (h3u : Contains st3 "Up" = false)
    (hq0 : s.docker.answers s.docker.asked id = .ok c)
    (hq1 : s.docker.answers (s.docker.asked + 1) id = .ok c) :
    ∃ (s1 s2 s3 after : Spy) (names : List PublishedName),
      handleContainerEvent ReverseAddr s id st1 = .ok s1 ∧
      handleContainerEvent ReverseAddr s1 id st2 = .ok s2 ∧
      handleContainerEvent ReverseAddr s2 id st3 = .ok s3 ∧
      getContainerNames s1 id = .ok ((names, none), after) ∧
      s1.trace = s.trace ∧
      s2.trace = s1.trace ++ Call.inspect id :: names.map (setCall ReverseAddr) ∧
      s3.trace = s2.trace ++ Call.inspect id :: names.map removeCall ∧
      (∀ n ∈ names, s3.dns.cache.entries n.name = none) ∧
      s3.containers id = none := by
  have hres0 : resolve (s.docker.answers s.docker.asked id) = (namesOf c, none) := by
    rw [hq0]; rfl
  have hres1 : resolve (s.docker.answers (s.docker.asked + 1) id) = (namesOf c, none) := by
    rw [hq1]; rfl
  -- the create step
  have hr1 : shouldRegister s id st1 = false := by simp [shouldRegister, habs, h1u]
  have hw1 : shouldWithdraw s id st1 = false := by simp [shouldWithdraw, habs]
  have hn1 : isNewCreation s id st1 = true := by simp [isNewCreation, habs, h1]
  have hd1 : (step ReverseAddr s id st1).docker = s.docker := by
    rw [step_asked]; simp [withdrawalQuery, hr1, hw1]
  have hc1 : (step ReverseAddr s id st1).containers id =
      some { first := st1, status := st1, created := true } := by
    rw [step_containers_self]; simp [hr1, hw1, hn1]
  -- the start step
  have hr2 : shouldRegister (step ReverseAddr s id st1) id st2 = true := by
    simp [shouldRegister, hc1, h1, h2]
  have hw2 : shouldWithdraw (step ReverseAddr s id st1) id st2 = false := by
    simp [shouldWithdraw, h2d]
  have hn2 : isNewCreation (step ReverseAddr s id st1) id st2 = false := by
    simp [isNewCreation, hc1]
  have hd2 : (step ReverseAddr (step ReverseAddr s id st1) id st2).docker =
      { s.docker with asked := s.docker.asked + 1 } := by
    rw [step_asked, hd1]; simp [withdrawalQuery, hr2, hw2, hd1]
  have hc2 : (step ReverseAddr (step ReverseAddr s id st1) id st2).containers id =
      some { first := "", status := st2, created := true } := by
    rw [step_containers_self]; simp [hr2, hw2, hn2, hd1, hres0]
  -- the die step
  have hempty : Contains "" "create" = false := by decide
  have hr3 : shouldRegister (step ReverseAddr (step ReverseAddr s id st1) id st2) id st3
      = false := by
    simp [shouldRegister, hc2, hempty, h3u]
  have hw3 : shouldWithdraw (step ReverseAddr (step ReverseAddr s id st1) id st2) id st3
      = true := by
    simp [shouldWithdraw, hc2, h3]
  have hwd3 : withdrawn (step ReverseAddr (step ReverseAddr s id st1) id st2) id st3
      = namesOf c := by
    simp [withdrawn, withdrawalQuery, hr3, hw3, hd2, hres1]
  refine ⟨step ReverseAddr s id st1, step ReverseAddr (step ReverseAddr s id st1) id st2,
    step ReverseAddr (step ReverseAddr (step ReverseAddr s id st1) id st2) id st3,
    (step ReverseAddr s id st1).inspected id, namesOf c,
    handleContainerEvent_eq _ _ _ _, handleContainerEvent_eq _ _ _ _,
    handleContainerEvent_eq _ _ _ _, ?_, ?_, ?_, ?_, ?_, ?_⟩
  · rw [getContainerNames_eq, hd1, hres0]
  · rw [step_trace]; simp [hr1, hw1]
  · rw [step_trace ReverseAddr (step ReverseAddr s id st1)]
    simp [hr2, hw2, published, hd1, hres0]
  · rw [step_trace ReverseAddr (step ReverseAddr (step ReverseAddr s id st1) id st2)]
    simp [hr3, hw3, hwd3]
  · intro n hn
    rw [step_cache ReverseAddr (step ReverseAddr (step ReverseAddr s id st1) id st2), hwd3,
      withdrawAll_entries]
    have : n.name ∈ (namesOf c).map (·.name) := List.mem_map.mpr ⟨n, hn, rfl⟩
    simp only [this, if_true]
  · rw [step_containers_self]; simp [hw3]

/-- The hypotheses of `create_start_die_round_trip` hold for the untracked identifier "a" of a
fresh spy and the statuses "create", "start" and "die", and the theorem applies to them. -/
theorem create_start_die_round_trip_witness :
    (freshSpy steadyClient).containers "a" = none ∧
    ∃ (s1 s2 s3 after : Spy) (names : List PublishedName),
      handleContainerEvent noReverse (freshSpy steadyClient) "a" "create" = .ok s1 ∧
      handleContainerEvent noReverse s1 "a" "start" = .ok s2 ∧
      handleContainerEvent noReverse s2 "a" "die" = .ok s3 ∧
      getContainerNames s1 "a" = .ok ((names, none), after) ∧
      s1.trace = (freshSpy steadyClient).trace ∧
      s2.trace = s1.trace ++ Call.inspect "a" :: names.map (setCall noReverse) ∧
      s3.trace = s2.trace ++ Call.inspect "a" :: names.map removeCall ∧
      (∀ n ∈ names, s3.dns.cache.entries n.name = none) ∧
      s3.containers "a" = none :=
  ⟨rfl,
    create_start_die_round_trip noReverse (freshSpy steadyClient) "a" "create" "start" "die"
      (sampleContainer ["DNS_PUBLISH_NAME_X=foo.example.com:10.0.0.5"]) rfl
      (by decide) (by decide) (by decide) (by decide) (by decide) (by decide) rfl rfl⟩

theorem data_of_parts (key name ip : String) :
    (key ++ "=" ++ name ++ ":" ++ ip).data = key.data ++ '=' :: (name.data ++ ':' :: ip.data) := by
  simp [String.data_append]

theorem overrideOf_of_parts (key name ip : String) (hk : '=' ∉ key.data)
    (hp : HasPrefix key "DNS_PUBLISH_NAME_" = true) (hn : ':' ∉ name.data) :
    overrideOf (key ++ "=" ++ name ++ ":" ++ ip) = some { name := name ++ ".", ip := ip } := by
  have hp2 : "DNS_PUBLISH_NAME_".data.isPrefixOf key.data = true := hp
  have hdot : String.mk (name.data ++ ['.']) = name ++ "." := by
    apply String.ext; simp [String.data_append]
  simp only [overrideOf, data_of_parts, cutAt_append _ hk, hp2, cutAt_append _ hn, if_true, hdot]

theorem parts_of_overrideOf {line : String} {n : PublishedName} (h : overrideOf line = some n) :
    ∃ key name ip : String, '=' ∉ key.data ∧ HasPrefix key "DNS_PUBLISH_NAME_" = true ∧
      ':' ∉ name.data ∧ line = key ++ "=" ++ name ++ ":" ++ ip ∧
      n = { name := name ++ ".", ip := ip } := by
  by_cases he : '=' ∈ line.data
  · obtain ⟨k, v, hkv, hk⟩ := exists_first_occurrence he
    by_cases hp : "DNS_PUBLISH_NAME_".data.isPrefixOf k = true
    · by_cases hv : ':' ∈ v
      · obtain ⟨a, i, hai, ha⟩ := exists_first_occurrence hv
        refine ⟨String.mk k, String.mk a, String.mk i, hk, hp, ha, ?_, ?_⟩
        · apply String.ext; rw [data_of_parts, hkv, hai]
        · have := overrideOf_of_parts (String.mk k) (String.mk a) (String.mk i) hk hp ha
          have hl : line = String.mk k ++ "=" ++ String.mk a ++ ":" ++ String.mk i := by
            apply String.ext; rw [data_of_parts, hkv, hai]
          rw [← hl, h] at this
          exact Option.some.inj this
      · simp [overrideOf, hkv, cutAt_append _ hk, hp, cutAt_of_not_mem hv] at h
    · simp [overrideOf, hkv, cutAt_append _ hk, hp] at h
  · simp [overrideOf, cutAt_of_not_mem he] at h

/-- C7: when the metadata query succeeds, `getContainerNames` returns without error or panic the
implicit name followed by what each environment entry emits, where an entry `KEY=NAME:IP`
(`KEY` without `=`, starting with `DNS_PUBLISH_NAME_`; `NAME` without `:`) emits the name
`NAME.` with address `IP`, and every entry that is not of this form emits nothing; so
`DNS_PUBLISH_NAME_X=foo.example.com:10.0.0.5` emits `foo.example.com.` at `10.0.0.5`, and
`DNS_PUBLISH_NAME_X=badvalue` and the empty entry emit nothing. -/
theorem getContainerNames_override_parsing (s : Spy) (id : String) (c : dockerApi.Container)
    (hq : s.docker.answers s.docker.asked id = .ok c) :
    ∃ (emitted : String → Option PublishedName) (first : PublishedName) (after : Spy),
      getContainerNames s id = .ok ((first :: c.Config.Env.filterMap emitted, none), after) ∧
      (∀ key name ip : String, '=' ∉ key.data → HasPrefix key "DNS_PUBLISH_NAME_" = true →
        ':' ∉ name.data →
        emitted (key ++ "=" ++ name ++ ":" ++ ip) = some { name := name ++ ".", ip := ip }) ∧
      (∀ line : String,
        (¬ ∃ key name ip : String, '=' ∉ key.data ∧ HasPrefix key "DNS_PUBLISH_NAME_" = true ∧
          ':' ∉ name.data ∧ line = key ++ "=" ++ name ++ ":" ++ ip) → emitted line = none) ∧
      emitted "DNS_PUBLISH_NAME_X=foo.example.com:10.0.0.5" =
        some { name := "foo.example.com.", ip := "10.0.0.5" } ∧
      emitted "DNS_PUBLISH_NAME_X=badvalue" = none ∧
      emitted "DNS_PUBLISH_NAME_X" = none ∧
      emitted "" = none := by
  refine ⟨overrideOf, implicitName c, s.inspected id, ?_, overrideOf_of_parts, ?_,
    by decide, by decide, by decide, by decide⟩
  · rw [getContainerNames_eq, hq]; rfl
  · intro line hline
    cases h : overrideOf line with
    | none => rfl
    | some n =>
      obtain ⟨key, name, ip, hk, hp, hn, hl, _⟩ := parts_of_overrideOf h
      exact absurd ⟨key, name, ip, hk, hp, hn, hl⟩ hline

/-- The hypothesis of `getContainerNames_override_parsing` holds for a workload whose environment
mixes well-formed and malformed entries, the theorem applies to it, and the names returned
are the implicit name and the one well-formed override. -/
theorem getContainerNames_override_parsing_witness :
    (∃ after, getContainerNames
        (freshSpy (envClient ["PATH=/bin:/usr/bin", "DNS_PUBLISH_NAME_X=foo.example.com:10.0.0.5",
          "DNS_PUBLISH_NAME_X=badvalue", "DNS_PUBLISH_NAME_Y", ""])) "a" =
      .ok (([{ name := "web.local.", ip := "172.17.0.2" },
             { name := "foo.example.com.", ip := "10.0.0.5" }], none), after)) ∧
    ∃ (emitted : String → Option PublishedName) (first : PublishedName) (after : Spy),
      getContainerNames
        (freshSpy (envClient ["PATH=/bin:/usr/bin", "DNS_PUBLISH_NAME_X=foo.example.com:10.0.0.5",
          "DNS_PUBLISH_NAME_X=badvalue", "DNS_PUBLISH_NAME_Y", ""])) "a" =
        .ok ((first :: (sampleContainer ["PATH=/bin:/usr/bin",
          "DNS_PUBLISH_NAME_X=foo.example.com:10.0.0.5", "DNS_PUBLISH_NAME_X=badvalue",
          "DNS_PUBLISH_NAME_Y", ""]).Config.Env.filterMap emitted, none), after) ∧
      (∀ key name ip : String, '=' ∉ key.data → HasPrefix key "DNS_PUBLISH_NAME_" = true →
        ':' ∉ name.data →
        emitted (key ++ "=" ++ name ++ ":" ++ ip) = some { name := name ++ ".", ip := ip }) ∧
      (∀ line : String,
        (¬ ∃ key name ip : String, '=' ∉ key.data ∧ HasPrefix key "DNS_PUBLISH_NAME_" = true ∧
          ':' ∉ name.data ∧ line = key ++ "=" ++ name ++ ":" ++ ip) → emitted line = none) ∧
      emitted "DNS_PUBLISH_NAME_X=foo.example.com:10.0.0.5" =
        some { name := "foo.example.com.", ip := "10.0.0.5" } ∧
      emitted "DNS_PUBLISH_NAME_X=badvalue" = none ∧
      emitted "DNS_PUBLISH_NAME_X" = none ∧
      emitted "" = none :=
  ⟨⟨_, rfl⟩,
    getContainerNames_override_parsing
      (freshSpy (envClient ["PATH=/bin:/usr/bin", "DNS_PUBLISH_NAME_X=foo.example.com:10.0.0.5",
        "DNS_PUBLISH_NAME_X=badvalue", "DNS_PUBLISH_NAME_Y", ""])) "a"
      (sampleContainer ["PATH=/bin:/usr/bin", "DNS_PUBLISH_NAME_X=foo.example.com:10.0.0.5",
        "DNS_PUBLISH_NAME_X=badvalue", "DNS_PUBLISH_NAME_Y", ""]) rfl⟩

/-- C8, as stated, fails: the entry `DNS_PUBLISH_NAME_X=:10.0.0.5`, whose NAME part is empty,
makes `getContainerNames` return the additional name `.` at `10.0.0.5`. -/
theorem empty_override_name_is_published :
    ∃ after, getContainerNames (freshSpy (envClient ["DNS_PUBLISH_NAME_X=:10.0.0.5"])) "a" =
      .ok (([{ name := "web.local.", ip := "172.17.0.2" },
             { name := ".", ip := "10.0.0.5" }], none), after) :=
  ⟨_, rfl⟩

/-- C8 (amended): when the metadata query succeeds, `getContainerNames` returns the implicit
name followed by additional names, and every additional name `NAME.` at `IP` comes from an
environment entry `KEY=NAME:IP` whose key (the text before the first `=`) starts with
`DNS_PUBLISH_NAME_` and whose value contains `:` (NAME being the text before the first `:`);
NAME may be empty. -/
theorem getContainerNames_additional_only_if (s : Spy) (id : String)
    (c : dockerApi.Container) (hq : s.docker.answers s.docker.asked id = .ok c) :
    ∃ (first : PublishedName) (extra : List PublishedName) (after : Spy),
      getContainerNames s id = .ok ((first :: extra, none), after) ∧
      ∀ n ∈ extra, ∃ line ∈ c.Config.Env, ∃ key name ip : String,
        line = key ++ "=" ++ name ++ ":" ++ ip ∧ '=' ∉ key.data ∧
        HasPrefix key "DNS_PUBLISH_NAME_" = true ∧ ':' ∉ name.data ∧
        n = { name := name ++ ".", ip := ip } := by
  refine ⟨implicitName c, c.Config.Env.filterMap overrideOf, s.inspected id, ?_, ?_⟩
  · rw [getContainerNames_eq, hq]; rfl
  · intro n hn
    obtain ⟨line, hline, hov⟩ := List.mem_filterMap.mp hn
    obtain ⟨key, name, ip, hk, hp, hnm, hl, hn⟩ := parts_of_overrideOf hov
    exact ⟨line, hline, key, name, ip, hl, hk, hp, hnm, hn⟩

/-- The hypothesis of `getContainerNames_additional_only_if` holds for a workload with one
override entry, and the theorem applies to it. -/
theorem getContainerNames_additional_only_if_witness :
    ∃ (first : PublishedName) (extra : List PublishedName) (after : Spy),
      getContainerNames (freshSpy steadyClient) "a" = .ok ((first :: extra, none), after) ∧
      ∀ n ∈ extra, ∃ line ∈ (sampleContainer
          ["DNS_PUBLISH_NAME_X=foo.example.com:10.0.0.5"]).Config.Env, ∃ key name ip : String,
        line = key ++ "=" ++ name ++ ":" ++ ip ∧ '=' ∉ key.data ∧
        HasPrefix key "DNS_PUBLISH_NAME_" = true ∧ ':' ∉ name.data ∧
        n = { name := name ++ ".", ip := ip } :=
  getContainerNames_additional_only_if (freshSpy steadyClient) "a"
    (sampleContainer ["DNS_PUBLISH_NAME_X=foo.example.com:10.0.0.5"]) rfl

/-- C9: `getContainerNames` always returns; its error is non-nil exactly when the metadata
query fails, and then the list is empty and the error is the query's; when the query succeeds
the error is nil and the list is the implicit name `hostname + "." + domain + "."` at the
workload's primary address, followed by the override names in the order of their environment
entries. -/
theorem getContainerNames_error_iff_query_fails (s : Spy) (id : String) :
    ∃ (names : List PublishedName) (err : Option String) (after : Spy),
      getContainerNames s id = .ok ((names, err), after) ∧
      (err.isSome = true ↔ ∃ e, s.docker.answers s.docker.asked id = .error e) ∧
      (∀ e, s.docker.answers s.docker.asked id = .error e → names = [] ∧ err = some e) ∧
      (∀ c, s.docker.answers s.docker.asked id = .ok c →
        err = none ∧ names ≠ [] ∧
        names = { name := c.Config.Hostname ++ "." ++ c.Config.Domainname ++ ".",
                  ip := c.NetworkSettings.IPAddress } :: c.Config.Env.filterMap overrideOf) := by
  refine ⟨(resolve (s.docker.answers s.docker.asked id)).1,
    (resolve (s.docker.answers s.docker.asked id)).2, s.inspected id,
    getContainerNames_eq s id, ?_, ?_, ?_⟩
  · cases s.docker.answers s.docker.asked id <;> simp [resolve]
  · intro e he; rw [he]; exact ⟨rfl, rfl⟩
  · intro c hc; rw [hc]; exact ⟨rfl, by simp [resolve, namesOf], rfl⟩

/-- C10: for an identifier present in the tracked mapping and a status that contains "die",
`handleContainerEvent` returns and the identifier is absent from the mapping afterwards,
whatever the metadata queries answer; and when the query of the withdrawal phase fails, no
`Remove` is issued and every key the cache held before is still held. -/
theorem handleContainerEvent_die_removes_tracked (s : Spy) (id status : String)
    (prev : Container) (hp : s.containers id = some prev)
    (hd : Contains status "die" = true) :
    ∃ s' : Spy,
      handleContainerEvent ReverseAddr s id status = .ok s' ∧
      s'.containers id = none ∧
      ((∃ e, s.docker.answers
            (s.docker.asked + if shouldRegister s id status then 1 else 0) id = .error e) →
        (∀ c ∈ s'.trace.drop s.trace.length, c.isRemove = false) ∧
        ∀ k, s.dns.cache.entries k ≠ none → s'.dns.cache.entries k ≠ none) := by
  have hw : shouldWithdraw s id status = true := by simp [shouldWithdraw, hp, hd]
  refine ⟨step ReverseAddr s id status, handleContainerEvent_eq _ _ _ _, ?_, ?_⟩
  · rw [step_containers_self]; simp [hw]
  · rintro ⟨e, he⟩
    have hwd : withdrawn s id status = [] := by
      simp only [withdrawn, hw, if_true, withdrawalQuery]
      rw [he]; rfl
    refine ⟨?_, ?_⟩
    · rw [step_trace, hwd]
      intro c hc
      simp only [List.append_assoc, List.drop_left, hw, if_true, List.map_nil] at hc
      rcases List.mem_append.mp hc with h | h
      · split at h
        · rcases List.mem_cons.mp h with rfl | h
          · rfl
          · obtain ⟨n, _, rfl⟩ := List.mem_map.mp h
            rfl
        · simp at h
      · simp at h
        subst h; rfl
    · intro k hk
      rw [step_cache, hwd]
      simp only [withdrawAll, List.foldl_nil]
      rw [publishAll_entries]
      cases lastWriter (published s id status) k with
      | none => exact hk
      | some n => simp

/-- The hypotheses of `handleContainerEvent_die_removes_tracked` hold for the tracked workload
"a" of `lostSpy`, whose metadata query fails, and the status "die"; the theorem applies to
them. -/
theorem handleContainerEvent_die_removes_tracked_witness :
    lostSpy.containers "a" = some { first := "", status := "Up 2 hours", created := true } ∧
    Contains "die" "die" = true ∧
    ∃ s' : Spy,
      handleContainerEvent noReverse lostSpy "a" "die" = .ok s' ∧
      s'.containers "a" = none ∧
      ((∃ e, lostSpy.docker.answers
            (lostSpy.docker.asked + if shouldRegister lostSpy "a" "die" then 1 else 0) "a"
              = .error e) →
        (∀ c ∈ s'.trace.drop lostSpy.trace.length, c.isRemove = false) ∧
        ∀ k, lostSpy.dns.cache.entries k ≠ none → s'.dns.cache.entries k ≠ none) :=
  ⟨rfl, by decide,
    handleContainerEvent_die_removes_tracked noReverse lostSpy "a" "die"
      { first := "", status := "Up 2 hours", created := true } rfl (by decide)⟩

/-- C11: for every spy and every published name, `registerName` writes the record
`(ip, reverseKey, name)` under the key `name`, whatever the cache held there before and
whether or not `ReverseAddr` reports an error, and touches no other key and no tracked
entry; the reverse key written is the name `ReverseAddr` returns, so when `ReverseAddr` fails
with the empty name (as `miekg/dns` does) the record is written with an empty reverse key;
in every case a lookup of `name` afterwards yields a record with that `ip`. -/
theorem registerName_writes_record (s : Spy) (name : PublishedName) :
    (registerName ReverseAddr s name).dns.cache.entries name.name =
        some ⟨name.ip, (ReverseAddr name.ip).1, name.name⟩ ∧
    (∀ e, ReverseAddr name.ip = ("", some e) →
      (registerName ReverseAddr s name).dns.cache.entries name.name =
        some ⟨name.ip, "", name.name⟩) ∧
    (∃ r, (registerName ReverseAddr s name).dns.cache.entries name.name = some r ∧
      r.ip = name.ip) ∧
    (∀ k, k ≠ name.name →
      (registerName ReverseAddr s name).dns.cache.entries k = s.dns.cache.entries k) ∧
    (registerName ReverseAddr s name).containers = s.containers ∧
    (registerName ReverseAddr s name).trace =
      s.trace ++ [Call.set name.name ⟨name.ip, (ReverseAddr name.ip).1, name.name⟩] := by
  refine ⟨?_, ?_, ?_, ?_, rfl, rfl⟩
  · simp [registerName, Cache.Set]
  · intro e he
    simp [registerName, Cache.Set, he]
  · exact ⟨⟨name.ip, (ReverseAddr name.ip).1, name.name⟩, by simp [registerName, Cache.Set], rfl⟩
  · intro k hk
    simp [registerName, Cache.Set, hk]

/-- C13: for an identifier absent from the tracked mapping, `handleContainerEvent` returns
whatever the status and the answers of the metadata query, and if the identifier is present in
the mapping afterwards then the status contains "create" or contains "Up". -/
theorem handleContainerEvent_leaves_absent_only_on_create_or_up (s : Spy) (id status : String)
    (habs : s.containers id = none) :
    ∃ s' : Spy,
      handleContainerEvent ReverseAddr s id status = .ok s' ∧
      ((s'.containers id).isSome = true →
        Contains status "create" = true ∨ Contains status "Up" = true) := by
  refine ⟨step ReverseAddr s id status, handleContainerEvent_eq _ _ _ _, ?_⟩
  rw [step_containers_self]
  have hw : shouldWithdraw s id status = false := by simp [shouldWithdraw, habs]
  cases hc : Contains status "create" <;> cases hu : Contains status "Up" <;>
    simp [hw, shouldRegister, isNewCreation, habs, hc, hu]

/-- The hypothesis of `handleContainerEvent_leaves_absent_only_on_create_or_up` holds for the
untracked identifier "a" of a fresh spy, and the theorem applies to it with the status
"create". -/
theorem handleContainerEvent_leaves_absent_only_on_create_or_up_witness :
    (freshSpy steadyClient).containers "a" = none ∧
    ∃ s' : Spy,
      handleContainerEvent noReverse (freshSpy steadyClient) "a" "create" = .ok s' ∧
      ((s'.containers "a").isSome = true →
        Contains "create" "create" = true ∨ Contains "create" "Up" = true) :=
  ⟨rfl, handleContainerEvent_leaves_absent_only_on_create_or_up noReverse
    (freshSpy steadyClient) "a" "create" rfl⟩

/-- C15: for an identifier absent from the tracked mapping and any status whatsoever,
`handleContainerEvent` returns and none of the calls it issues is a cache `Remove`. -/
theorem handleContainerEvent_untracked_issues_no_remove (s : Spy) (id status : String)
    (habs : s.containers id = none) :
    ∃ s' : Spy,
      handleContainerEvent ReverseAddr s id status = .ok s' ∧
      ∀ c ∈ s'.trace.drop s.trace.length, c.isRemove = false := by
  refine ⟨step ReverseAddr s id status, handleContainerEvent_eq _ _ _ _, ?_⟩
  have hw : shouldWithdraw s id status = false := by simp [shouldWithdraw, habs]
  rw [step_trace]
  intro c hc
  simp only [List.append_assoc, List.drop_left, hw, Bool.false_eq_true, if_false,
    List.append_nil] at hc
  split at hc
  · rcases List.mem_cons.mp hc with rfl | h
    · rfl
    · obtain ⟨n, _, rfl⟩ := List.mem_map.mp h
      rfl
  · simp at hc

/-- The hypothesis of `handleContainerEvent_untracked_issues_no_remove` holds for the untracked
identifier "a" of a fresh spy, and the theorem applies to it with the status "Up die". -/
theorem handleContainerEvent_untracked_issues_no_remove_witness :
    (freshSpy steadyClient).containers "a" = none ∧
    ∃ s' : Spy,
      handleContainerEvent noReverse (freshSpy steadyClient) "a" "Up die" = .ok s' ∧
      ∀ c ∈ s'.trace.drop (freshSpy steadyClient).trace.length, c.isRemove = false :=
  ⟨rfl, handleContainerEvent_untracked_issues_no_remove noReverse
    (freshSpy steadyClient) "a" "Up die" rfl⟩

/-- C18: for an identifier present in the tracked mapping whose stored `first` does not contain
"create" and a status that contains neither "Up" nor "die", `handleContainerEvent` returns the
spy unchanged: no query, no `Set`, no `Remove`, same mapping; and the premise on `first` holds
for every entry written while the identifier was already tracked: after a notification for a
tracked identifier its entry is either the one stored before or has an empty `first`. -/
theorem handleContainerEvent_tracked_without_create_noop (s : Spy) (id status : String)
    (prev : Container) (hp : s.containers id = some prev)
    (hnc : Contains prev.first "create" = false)
    (hnu : Contains status "Up" = false) (hnd : Contains status "die" = false) :
    handleContainerEvent ReverseAddr s id status = .ok s ∧
    ∀ (t : Spy) (st : String) (old : Container), t.containers id = some old →
      ∃ t' : Spy, handleContainerEvent ReverseAddr t id st = .ok t' ∧
        ∀ e, t'.containers id = some e →
          e = old ∨ (e.first = "" ∧ Contains e.first "create" = false) := by
  refine ⟨?_, ?_⟩
  · rw [handleContainerEvent_eq, step_eq_self]
    · simp [shouldRegister, hp, hnc, hnu]
    · simp [shouldWithdraw, hnd]
    · simp [isNewCreation, hp]
  · intro t st old hold
    refine ⟨step ReverseAddr t id st, handleContainerEvent_eq _ _ _ _, ?_⟩
    intro e he
    rw [step_containers_self] at he
    have hn : isNewCreation t id st = false := by simp [isNewCreation, hold]
    have hempty : Contains "" "create" = false := by decide
    by_cases hw : shouldWithdraw t id st = true
    · simp [hw] at he
    · by_cases hr : shouldRegister t id st = true
      · simp only [hw, hr, hn, Bool.false_eq_true, if_false, if_true] at he
        split at he
        · simp at he
        · right
          have := Option.some.inj he
          subst this
          exact ⟨rfl, hempty⟩
      · left
        simp only [hw, hr, hn, Bool.false_eq_true, if_false, hold] at he
        exact (Option.some.inj he).symm

/-- The hypotheses of `handleContainerEvent_tracked_without_create_noop` hold for the tracked
workload "a" of `trackedSpy` and a second "start", and the theorem applies to them. -/
theorem handleContainerEvent_tracked_without_create_noop_witness :
    trackedSpy.containers "a" = some { first := "", status := "Up 2 hours", created := true } ∧
    Contains "" "create" = false ∧ Contains "start" "Up" = false ∧
    Contains "start" "die" = false ∧
    handleContainerEvent noReverse trackedSpy "a" "start" = .ok trackedSpy :=
  ⟨rfl, by decide, by decide, by decide,
    (handleContainerEvent_tracked_without_create_noop noReverse trackedSpy "a" "start"
      { first := "", status := "Up 2 hours", created := true } rfl (by decide) (by decide)
      (by decide)).1⟩

theorem step_congr_entry (s t : Spy) (id status : String)
    (hc : s.containers id = t.containers id)
    (h0 : s.docker.answers s.docker.asked id = t.docker.answers t.docker.asked id)
    (h1 : s.docker.answers (s.docker.asked + 1) id = t.docker.answers (t.docker.asked + 1) id) :
    (step ReverseAddr s id status).containers id = (step ReverseAddr t id status).containers id ∧
    (step ReverseAddr s id status).trace.drop s.trace.length =
      (step ReverseAddr t id status).trace.drop t.trace.length := by
  have hr : shouldRegister s id status = shouldRegister t id status := by
    simp [shouldRegister, hc]
  have hw : shouldWithdraw s id status = shouldWithdraw t id status := by
    simp [shouldWithdraw, hc]
  have hn : isNewCreation s id status = isNewCreation t id status := by
    simp [isNewCreation, hc]
  have hp : published s id status = published t id status := by
    simp [published, hr, h0]
  have hwd : withdrawn s id status = withdrawn t id status := by
    unfold withdrawn withdrawalQuery
    rw [hw, hr]
    cases shouldRegister t id status <;> simp [h0, h1]
  refine ⟨?_, ?_⟩
  · rw [step_containers_self, step_containers_self, hr, hw, hn, h0, hc]
  · rw [step_trace, step_trace, hp, hwd, hr, hw]
    simp [List.append_assoc]

/-- C14: for an identifier present in the tracked mapping and a status that contains "die"
(whether or not it also contains "Up" or "start"), the metadata query answering `c` each time
the step asks: `handleContainerEvent` returns; the calls issued are the registration block
(query and one `Set` per name) when registration runs, followed by the query and one `Remove`
per name; and every name returned by `getContainerNames` is absent from the cache
afterwards. -/
theorem handleContainerEvent_die_withdraws_after_publishing (s : Spy) (id status : String)
    (prev : Container) (c : dockerApi.Container) (hp : s.containers id = some prev)
    (hd : Contains status "die" = true)
    (hq0 : s.docker.answers s.docker.asked id = .ok c)
    (hq1 : shouldRegister s id status = true →
      s.docker.answers (s.docker.asked + 1) id = .ok c) :
    ∃ (s' after : Spy) (names : List PublishedName),
      handleContainerEvent ReverseAddr s id status = .ok s' ∧
      getContainerNames s id = .ok ((names, none), after) ∧
      s'.trace = s.trace ++
        (if shouldRegister s id status then
          Call.inspect id :: names.map (setCall ReverseAddr) else []) ++
        Call.inspect id :: names.map removeCall ∧
      ∀ n ∈ names, s'.dns.cache.entries n.name = none := by
  have hw : shouldWithdraw s id status = true := by simp [shouldWithdraw, hp, hd]
  have hres0 : resolve (s.docker.answers s.docker.asked id) = (namesOf c, none) := by
    rw [hq0]; rfl
  have hwd : withdrawn s id status = namesOf c := by
    simp only [withdrawn, hw, if_true, withdrawalQuery]
    by_cases hr : shouldRegister s id status = true
    · simp [hr, hq1 hr, resolve]
    · simp [hr, hres0]
  refine ⟨step ReverseAddr s id status, s.inspected id, namesOf c,
    handleContainerEvent_eq _ _ _ _, ?_, ?_, ?_⟩
  · rw [getContainerNames_eq, hres0]
  · rw [step_trace, hwd]
    by_cases hr : shouldRegister s id status = true
    · simp [hr, hw, published, hres0]
    · simp [hr, hw]
  · intro n hn
    rw [step_cache, hwd, withdrawAll_entries]
    have : n.name ∈ (namesOf c).map (·.name) := List.mem_map.mpr ⟨n, hn, rfl⟩
    simp only [this, if_true]

/-- The hypotheses of `handleContainerEvent_die_withdraws_after_publishing` hold for the tracked
workload "a" of `trackedSpy` and the status "Up die", for which registration runs in the same
step, and the theorem applies to them. -/
theorem handleContainerEvent_die_withdraws_after_publishing_witness :
    trackedSpy.containers "a" = some { first := "", status := "Up 2 hours", created := true } ∧
    Contains "Up die" "die" = true ∧ shouldRegister trackedSpy "a" "Up die" = true ∧
    ∃ (s' after : Spy) (names : List PublishedName),
      handleContainerEvent noReverse trackedSpy "a" "Up die" = .ok s' ∧
      getContainerNames trackedSpy "a" = .ok ((names, none), after) ∧
      s'.trace = trackedSpy.trace ++
        (if shouldRegister trackedSpy "a" "Up die" then
          Call.inspect "a" :: names.map (setCall noReverse) else []) ++
        Call.inspect "a" :: names.map removeCall ∧
      ∀ n ∈ names, s'.dns.cache.entries n.name = none :=
  ⟨rfl, by decide, rfl,
    handleContainerEvent_die_withdraws_after_publishing noReverse trackedSpy "a" "Up die"
      { first := "", status := "Up 2 hours", created := true }
      (sampleContainer ["DNS_PUBLISH_NAME_X=foo.example.com:10.0.0.5"])
      rfl (by decide) rfl (fun _ => rfl)⟩

/-- C16: `handleContainerEvent` returns and leaves the entry, or absence, of every identifier
other than `id` as it was; and what it does depends on the spy only through the entry or
absence of `id`: on any other spy with the same entry for `id` (other entries, cache and
earlier calls arbitrary) that gets the same answers from the metadata query, it issues the same
calls and leaves the same entry for `id`, again touching no other entry. -/
theorem handleContainerEvent_frame (s : Spy) (id status : String) :
    ∃ s' : Spy,
      handleContainerEvent ReverseAddr s id status = .ok s' ∧
      (∀ k, k ≠ id → s'.containers k = s.containers k) ∧
      ∀ t : Spy, t.containers id = s.containers id →
        (∀ j, j < 2 → t.docker.answers (t.docker.asked + j) id =
          s.docker.answers (s.docker.asked + j) id) →
        ∃ t' : Spy,
          handleContainerEvent ReverseAddr t id status = .ok t' ∧
          t'.containers id = s'.containers id ∧
          t'.trace.drop t.trace.length = s'.trace.drop s.trace.length ∧
          ∀ k, k ≠ id → t'.containers k = t.containers k := by
  refine ⟨step ReverseAddr s id status, handleContainerEvent_eq _ _ _ _,
    fun k hk => step_containers_of_ne _ _ _ _ _ hk, ?_⟩
  intro t ht hans
  have h := step_congr_entry ReverseAddr t s id status ht
    (by simpa using hans 0 (by decide)) (hans 1 (by decide))
  exact ⟨step ReverseAddr t id status, handleContainerEvent_eq _ _ _ _, h.1, h.2,
    fun k hk => step_containers_of_ne _ _ _ _ _ hk⟩

theorem readEventStream_eq (s : Spy) (events : List dockerApi.APIEvents) :
    readEventStream ReverseAddr s events = .ok (replay ReverseAddr s events) := by
  induction events generalizing s with
  | nil => rfl
  | cons msg rest ih =>
    have h := ih (step ReverseAddr s msg.ID msg.Status)
    unfold readEventStream at h ⊢
    rw [List.foldlM_cons, handleContainerEvent_eq]
    exact h

theorem writes_cons (s : Spy) (id : String) (msg : dockerApi.APIEvents)
    (rest : List dockerApi.APIEvents) :
    writes ReverseAddr s id (msg :: rest) =
      (if msg.ID = id ∧ wrote s id msg.Status = true then [msg.Status] else []) ++
        writes ReverseAddr (step ReverseAddr s msg.ID msg.Status) id rest := by
  simp [writes, handleContainerEvent_eq]

theorem step_entry_cases (s : Spy) (id status : String) (e : Container)
    (h : (step ReverseAddr s id status).containers id = some e) :
    (wrote s id status = true ∧
      e = { first := if isNewCreation s id status then status else "",
            status := status, created := true }) ∨
    (wrote s id status = false ∧ s.containers id = some e) := by
  rw [step_containers_self] at h
  unfold wrote
  by_cases hw : shouldWithdraw s id status = true
  · simp [hw] at h
  · by_cases hr : shouldRegister s id status = true
    · simp only [hw, hr, Bool.false_eq_true, if_false, if_true] at h
      split at h
      · simp at h
      · exact Or.inl ⟨by simp [hr], (Option.some.inj h).symm⟩
    · by_cases hn : isNewCreation s id status = true
      · simp only [hw, hr, hn, Bool.false_eq_true, if_false, if_true] at h
        exact Or.inl ⟨by simp [hn], by simp [← Option.some.inj h, hn]⟩
      · simp only [hw, hr, hn, Bool.false_eq_true, if_false] at h
        exact Or.inr ⟨by simp [hr, hn], h⟩

/-- C17: in every state reached from the empty mapping by any sequence of notifications,
whatever the statuses and the answers of the metadata query, `readEventStream` returns and
every stored entry has `created = true` and a `first` that is either empty or equal to the
stored status and containing "create". -/
theorem tracked_entries_invariant (s : Spy) (events : List dockerApi.APIEvents)
    (hempty : ∀ k, s.containers k = none) :
    ∃ s' : Spy,
      readEventStream ReverseAddr s events = .ok s' ∧
      ∀ id e, s'.containers id = some e →
        e.created = true ∧
        (e.first = "" ∨ (e.first = e.status ∧ Contains e.first "create" = true)) := by
  refine ⟨replay ReverseAddr s events, readEventStream_eq _ _ _, ?_⟩
  have key : ∀ (evs : List dockerApi.APIEvents) (t : Spy),
      (∀ id e, t.containers id = some e →
        e.created = true ∧
        (e.first = "" ∨ (e.first = e.status ∧ Contains e.first "create" = true))) →
      ∀ id e, (replay ReverseAddr t evs).containers id = some e →
        e.created = true ∧
        (e.first = "" ∨ (e.first = e.status ∧ Contains e.first "create" = true)) := by
    intro evs
    induction evs with
    | nil => intro t ht; exact ht
    | cons msg rest ih =>
      intro t ht
      apply ih (step ReverseAddr t msg.ID msg.Status)
      intro id e he
      by_cases hid : id = msg.ID
      · subst hid
        rcases step_entry_cases ReverseAddr t _ msg.Status e he with ⟨_, rfl⟩ | ⟨_, hold⟩
        · refine ⟨rfl, ?_⟩
          by_cases hn : isNewCreation t msg.ID msg.Status = true
          · right
            have hc : Contains msg.Status "create" = true := by
              unfold isNewCreation at hn
              simp at hn
              exact hn.2
            simp [hn, hc]
          · left; simp [hn]
        · exact ht _ e hold
      · rw [step_containers_of_ne _ _ _ _ _ hid] at he
        exact ht _ e he
  exact key events s (fun id e he => by rw [hempty] at he; cases he)

/-- The hypothesis of `tracked_entries_invariant` holds for a fresh spy, and the theorem applies
to it with the notifications "create", "start", "Up 2 hours" for "a" and "create" for "b". -/
theorem tracked_entries_invariant_witness :
    (∀ k, (freshSpy steadyClient).containers k = none) ∧
    ∃ s' : Spy,
      readEventStream noReverse (freshSpy steadyClient)
        [⟨"a", "create"⟩, ⟨"a", "start"⟩, ⟨"b", "create"⟩, ⟨"a", "Up 2 hours"⟩] = .ok s' ∧
      ∀ id e, s'.containers id = some e →
        e.created = true ∧
        (e.first = "" ∨ (e.first = e.status ∧ Contains e.first "create" = true)) :=
  ⟨fun _ => rfl, tracked_entries_invariant noReverse (freshSpy steadyClient)
    [⟨"a", "create"⟩, ⟨"a", "start"⟩, ⟨"b", "create"⟩, ⟨"a", "Up 2 hours"⟩] (fun _ => rfl)⟩

theorem replay_entry_last_write (events : List dockerApi.APIEvents) (s : Spy) (id : String)
    (e : Container) (h : (replay ReverseAddr s events).containers id = some e) :
    (writes ReverseAddr s id events = [] ∧ s.containers id = some e) ∨
    (writes ReverseAddr s id events).getLast? = some e.status := by
  induction events generalizing s with
  | nil => exact Or.inl ⟨rfl, h⟩
  | cons msg rest ih =>
    have h' : (replay ReverseAddr (step ReverseAddr s msg.ID msg.Status) rest).containers id
        = some e := h
    rw [writes_cons]
    rcases ih (step ReverseAddr s msg.ID msg.Status) h' with ⟨hnil, hentry⟩ | hlast
    · rw [hnil, List.append_nil]
      by_cases hid : msg.ID = id
      · subst hid
        rcases step_entry_cases ReverseAddr s _ msg.Status e hentry with ⟨hw, rfl⟩ | ⟨hw, hold⟩
        · right; simp [hw]
        · left; simp [hw, hold]
      · left
        rw [step_containers_of_ne _ _ _ _ _ (Ne.symm hid)] at hentry
        simp [hid, hentry]
    · right
      have hne : writes ReverseAddr (step ReverseAddr s msg.ID msg.Status) id rest ≠ [] := by
        intro hnil; rw [hnil] at hlast; simp at hlast
      rw [List.getLast?_append_of_ne_nil _ hne]
      exact hlast

/-- C12, as stated, fails: after the notifications "create", "start" and "pause" for the
workload "a", processed from the empty mapping, "a" is tracked and its stored status is
"start", not the status "pause" of the most recent notification: a notification for which
neither `register` nor `first` holds does not write the entry. -/
theorem stored_status_not_most_recent :
    ∃ s' : Spy,
      readEventStream noReverse (freshSpy steadyClient)
        [⟨"a", "create"⟩, ⟨"a", "start"⟩, ⟨"a", "pause"⟩] = .ok s' ∧
      s'.containers "a" = some { first := "", status := "start", created := true } :=
  ⟨_, rfl, rfl⟩

/-- C12 (amended): in every state reached from the empty mapping by any sequence of
notifications, `readEventStream` returns and for every identifier present in the tracked
mapping the stored status is the status of the most recent notification for that identifier
for which `update` (`register` or `first`) held; and a notification for a tracked identifier
for which `update` does not hold and whose status does not contain "die" leaves the spy
unchanged. -/
theorem stored_status_is_last_written (s : Spy) (events : List dockerApi.APIEvents)
    (hempty : ∀ k, s.containers k = none) :
    ∃ s' : Spy,
      readEventStream ReverseAddr s events = .ok s' ∧
      (∀ id e, s'.containers id = some e →
        (writes ReverseAddr s id events).getLast? = some e.status) ∧
      ∀ (t : Spy) (id status : String) (e : Container), t.containers id = some e →
        wrote t id status = false → Contains status "die" = false →
        handleContainerEvent ReverseAddr t id status = .ok t := by
  refine ⟨replay ReverseAddr s events, readEventStream_eq _ _ _, ?_, ?_⟩
  · intro id e he
    rcases replay_entry_last_write ReverseAddr events s id e he with ⟨_, habs⟩ | h
    · rw [hempty] at habs; cases habs
    · exact h
  · intro t id status e he hw hd
    have hw' : (shouldRegister t id status || isNewCreation t id status) = false := hw
    rw [handleContainerEvent_eq, step_eq_self]
    · cases h : shouldRegister t id status
      · rfl
      · rw [h] at hw'; simp at hw'
    · simp [shouldWithdraw, hd]
    · simp [isNewCreation, he]

/-- The hypothesis of `stored_status_is_last_written` holds for a fresh spy, and the theorem
applies to it with the notifications "create", "start" and "pause" for "a". -/
theorem stored_status_is_last_written_witness :
    (∀ k, (freshSpy steadyClient).containers k = none) ∧
    writes noReverse (freshSpy steadyClient) "a"
      [⟨"a", "create"⟩, ⟨"a", "start"⟩, ⟨"a", "pause"⟩] = ["create", "start"] ∧
    ∃ s' : Spy,
      readEventStream noReverse (freshSpy steadyClient)
        [⟨"a", "create"⟩, ⟨"a", "start"⟩, ⟨"a", "pause"⟩] = .ok s' ∧
      (∀ id e, s'.containers id = some e →
        (writes noReverse (freshSpy steadyClient) id
          [⟨"a", "create"⟩, ⟨"a", "start"⟩, ⟨"a", "pause"⟩]).getLast? = some e.status) ∧
      ∀ (t : Spy) (id status : String) (e : Container), t.containers id = some e →
        wrote t id status = false → Contains status "die" = false →
        handleContainerEvent noReverse t id status = .ok t :=
  ⟨fun _ => rfl, by decide,
    stored_status_is_last_written noReverse (freshSpy steadyClient)
      [⟨"a", "create"⟩, ⟨"a", "start"⟩, ⟨"a", "pause"⟩] (fun _ => rfl)⟩

/-- C6, as stated, fails: for the tracked workload "a" and the status "Up die", for which
`shouldRegister` holds, the registration query fails and the withdrawal query of the same step
succeeds; `handleContainerEvent` then removes the name of "a" from the cache, so the cache is
not unchanged. -/
theorem failed_registration_then_withdrawal_changes_cache :
    shouldRegister recoveringSpy "a" "Up die" = true ∧
    recoveringSpy.docker.answers recoveringSpy.docker.asked "a" = .error "no such container" ∧
    ∃ s1 : Spy,
      handleContainerEvent noReverse recoveringSpy "a" "Up die" = .ok s1 ∧
      s1.trace = [Call.inspect "a", Call.inspect "a", Call.remove "web.local."] ∧
      recoveringSpy.dns.cache.entries "web.local." =
        some ⟨"172.17.0.2", "", "web.local."⟩ ∧
      s1.dns.cache.entries "web.local." = none :=
  ⟨rfl, rfl, _, rfl, rfl, rfl, rfl⟩

/-- C6 (amended): when `shouldRegister` holds for `(A, stA)` and the registration query for `A`
fails, `handleContainerEvent` returns, `A` is absent from the mapping, no `Set` is issued and
every cache key holds what it held before or nothing; the cache is unchanged unless the step
also withdraws (`A` tracked, status containing "die") with a withdrawal query that succeeds;
and for an identifier `B ≠ A` that gets the same answers from the resolver, the next
notification `(B, stB)` returns, leaves the same mapping entry for `B` and issues the same
calls as it does on the state in which `A`'s notification was never processed, and leaves the
same cache whenever `A`'s step left the cache unchanged. -/
theorem failed_registration_isolated (s : Spy) (A B stA stB e0 : String)
    (hne : A ≠ B) (hreg : shouldRegister s A stA = true)
    (hf0 : s.docker.answers s.docker.asked A = .error e0) :
    ∃ s1 : Spy,
      handleContainerEvent ReverseAddr s A stA = .ok s1 ∧
      s1.containers A = none ∧
      (∀ c ∈ s1.trace.drop s.trace.length, c.isSet = false) ∧
      (∀ k, s1.dns.cache.entries k = s.dns.cache.entries k ∨ s1.dns.cache.entries k = none) ∧
      ((s.containers A = none ∨ Contains stA "die" = false ∨
          ∃ e1, s.docker.answers (s.docker.asked + 1) A = .error e1) →
        s1.dns.cache.entries = s.dns.cache.entries) ∧
      ((∀ j, j < 2 → s.docker.answers (s1.docker.asked + j) B =
            s.docker.answers (s.docker.asked + j) B) →
        ∃ t1 t0 : Spy,
          handleContainerEvent ReverseAddr s1 B stB = .ok t1 ∧
          handleContainerEvent ReverseAddr s B stB = .ok t0 ∧
          t1.containers B = t0.containers B ∧
          t1.trace.drop s1.trace.length = t0.trace.drop s.trace.length ∧
          (s1.dns.cache.entries = s.dns.cache.entries →
            t1.dns.cache.entries = t0.dns.cache.entries)) := by
  have hres0 : resolve (s.docker.answers s.docker.asked A) = ([], some e0) := by
    rw [hf0]; rfl
  have hpub : published s A stA = [] := by simp [published, hreg, hres0]
  have hcache : (step ReverseAddr s A stA).dns.cache =
      withdrawAll s.dns.cache (withdrawn s A stA) := by
    rw [step_cache, hpub]; rfl
  refine ⟨step ReverseAddr s A stA, handleContainerEvent_eq _ _ _ _, ?_, ?_, ?_, ?_, ?_⟩
  · rw [step_containers_self]; simp [hreg, hres0]
  · rw [step_trace, hpub]
    intro c hc
    simp only [hreg, if_true, List.map_nil, List.append_assoc, List.drop_left] at hc
    rcases List.mem_append.mp hc with h | h
    · simp at h; subst h; rfl
    · split at h
      · rcases List.mem_cons.mp h with rfl | h
        · rfl
        · exact isSet_setCall_false_of_removes _ c h
      · simp at h
  · intro k
    rw [hcache, withdrawAll_entries]
    by_cases hk : k ∈ (withdrawn s A stA).map (·.name)
    · right; simp only [hk, if_true]
    · left; simp only [hk, if_false]
  · intro h
    have hwd : withdrawn s A stA = [] := by
      unfold withdrawn
      by_cases hw : shouldWithdraw s A stA = true
      · have hw' := hw
        unfold shouldWithdraw at hw'
        rcases h with h | h | ⟨e1, h⟩
        · simp [h] at hw'
        · simp [h] at hw'
        · simp [hw, withdrawalQuery, hreg, h, resolve]
      · simp [hw]
    rw [hcache, hwd]; rfl
  · intro hB
    have h := step_congr_entry ReverseAddr (step ReverseAddr s A stA) s B stB
      (step_containers_of_ne _ _ _ _ _ (Ne.symm hne))
      (by rw [step_answers]; simpa using hB 0 (by decide))
      (by rw [step_answers]; exact hB 1 (by decide))
    refine ⟨_, _, handleContainerEvent_eq _ _ _ _, handleContainerEvent_eq _ _ _ _,
      h.1, h.2, ?_⟩
    intro hsame
    have hc : (step ReverseAddr s A stA).dns.cache = s.dns.cache := by
      cases hx : (step ReverseAddr s A stA).dns.cache with
      | mk f =>
        cases hy : s.dns.cache with
        | mk g => rw [hx, hy] at hsame; simp at hsame; rw [hsame]
    have h2 := step_congr ReverseAddr (step ReverseAddr s A stA) s B stB
      (step_containers_of_ne _ _ _ _ _ (Ne.symm hne)) hc
      (by rw [step_answers]; simpa using hB 0 (by decide))
      (by rw [step_answers]; exact hB 1 (by decide))
    rw [h2.2.1]

/-- The hypotheses of `failed_registration_isolated` hold for the tracked workload "a" of
`recoveringSpy`, whose registration query fails, with the notifications ("a", "Up die") and
("b", "Up 2 hours"), and the theorem applies to them. -/
theorem failed_registration_isolated_witness :
    "a" ≠ "b" ∧ shouldRegister recoveringSpy "a" "Up die" = true ∧
    recoveringSpy.docker.answers recoveringSpy.docker.asked "a" = .error "no such container" ∧
    ∃ s1 : Spy,
      handleContainerEvent noReverse recoveringSpy "a" "Up die" = .ok s1 ∧
      s1.containers "a" = none ∧
      (∀ c ∈ s1.trace.drop recoveringSpy.trace.length, c.isSet = false) ∧
      (∀ k, s1.dns.cache.entries k = recoveringSpy.dns.cache.entries k ∨
        s1.dns.cache.entries k = none) ∧
      ((recoveringSpy.containers "a" = none ∨ Contains "Up die" "die" = false ∨
          ∃ e1, recoveringSpy.docker.answers (recoveringSpy.docker.asked + 1) "a" = .error e1) →
        s1.dns.cache.entries = recoveringSpy.dns.cache.entries) ∧
      ((∀ j, j < 2 → recoveringSpy.docker.answers (s1.docker.asked + j) "b" =
            recoveringSpy.docker.answers (recoveringSpy.docker.asked + j) "b") →
        ∃ t1 t0 : Spy,
          handleContainerEvent noReverse s1 "b" "Up 2 hours" = .ok t1 ∧
          handleContainerEvent noReverse recoveringSpy "b" "Up 2 hours" = .ok t0 ∧
          t1.containers "b" = t0.containers "b" ∧
          t1.trace.drop s1.trace.length = t0.trace.drop recoveringSpy.trace.length ∧
          (s1.dns.cache.entries = recoveringSpy.dns.cache.entries →
            t1.dns.cache.entries = t0.dns.cache.entries)) :=
  ⟨by decide, rfl, rfl,
    failed_registration_isolated noReverse recoveringSpy "a" "b" "Up die" "Up 2 hours"
      "no such container" (by decide) rfl rfl⟩

end Lemmas

end DockerSpy
